import Mathlib

/-!
# Verification of the charmed-osm/oai-bundle reconciliation charms

Shallow embedding of the Python operator charms of the oai-bundle repository
(`oai-amf-operator`, `oai-smf-operator`, `oai-spgwu-tiny-operator`,
`oai-nr-ue-operator` and the shared `utils.py`), together with theorems that
settle the claims of the specification against them.

Modelling conventions:
* Relation databags are association lists `KVMap`; `none : Option KVMap`
  models an absent relation (or a relation whose remote application is not
  yet in `relation.data`), exactly the guard
  `if relation and relation.app in relation.data`.
* Python `StoredState` string fields are `Option String`; Python truthiness
  of such a value (`None` and `""` are falsy) is the function `truthy`.
* The pebble workload runtime of a container is represented by the list of
  service names present in the plan (`plan`) and the list of currently
  running services (`running`).  Transient unavailability of the pebble
  socket is modelled by an oracle `avail : Nat → Bool` consulted once per
  pebble-backed operation, in program order: when the oracle answers
  `false` for that operation, the operation raises `ConnectionError`.
* `container.get_service name` additionally raises `ModelError` when `name`
  is not in the plan (`ops.model.Container.get_service` semantics).
* A reconciliation pass returns the post state, an `Outcome`
  (`ok` / `deferred` via `event.defer()` / `raised e` for an exception that
  escapes the handler) and a trace of the workload/relation operations it
  performed.
-/

namespace OaiBundle


/-! ## Strings and key-value databags -/

/-- `charsStartWith pat s` : `pat` is a leading sequence of `s`. -/
def charsStartWith : List Char → List Char → Bool
  | [], _ => true
  | _ :: _, [] => false
  | a :: as, b :: bs => a == b && charsStartWith as bs

/-- `charsContain pat s` : `pat` occurs contiguously somewhere in `s`. -/
def charsContain (pat : List Char) : List Char → Bool
  | [] => charsStartWith pat []
  | c :: rest => charsStartWith pat (c :: rest) || charsContain pat rest

/-- Python `tok in line` on strings (substring containment). -/
def strHas (line tok : String) : Bool :=
  charsContain tok.data line.data

/-- A relation databag: the key-value map one side of a relation wrote. -/
abbrev KVMap := List (String × String)

/-- Python `databag.get(key)`: `none` when the key is absent. -/
def kvGet (m : KVMap) (k : String) : Option String :=
  match m with
  | [] => none
  | (k', v) :: rest => if k' == k then some v else kvGet rest k

/-- Python `databag[key] = value` (replace or append). -/
def kvSet (m : KVMap) (k v : String) : KVMap :=
  match m with
  | [] => [(k, v)]
  | (k', v') :: rest => if k' == k then (k, v) :: rest else (k', v') :: kvSet rest k v

/-- Python truthiness of a stored relation value: `None` and `""` are falsy. -/
def truthy : Option String → Bool
  | none => false
  | some s => !(s == "")

/-! ## `OaiCharm.search_logs` (oai-nr-ue-operator/src/utils.py)

The body of `search_logs` iterates over the lines produced by
`pebble logs <service> [-f] -n all`.  In `logs` mode, for every line the
inner loop

    for log in logs:
        if log in line:
            found_logs.add(log)
            break

adds the *first* token (in the token set's iteration order) occurring in the
line — already-found tokens included — and then checks
`all(log in found_logs for log in logs)`.  With `wait=True` the subprocess
follows the stream (`-f`), so the iteration ends only when every token has
been found (`break`) or the stream itself ends; there is no timeout.
The token set's iteration order is modelled by a `List String`.
-/

/-- One line of the scan in `logs` mode: credit the first token occurring in
the line (Python `for log in logs: if log in line: found_logs.add(log); break`). -/
def scanLine (tokens found : List String) (line : String) : List String :=
  match tokens.find? (fun t => strHas line t) with
  | some t => if found.contains t then found else found ++ [t]
  | none => found

/-- The scan loop on the lines read so far, in `logs` mode.
`some true` : the loop broke out with `all_logs_found = True`;
`none` : the lines are exhausted without success — under `wait=True`
(follow mode) the loop is still blocked waiting for more output, under
`wait=False` the subprocess is at EOF and `False` is returned. -/
def searchLoopPartial (tokens : List String) : List String → List String → Option Bool
  | [], _ => none
  | line :: rest, found =>
    let found2 := scanLine tokens found line
    if tokens.all (fun t => found2.contains t) then some true
    else searchLoopPartial tokens rest found2

/-- Result of the `logs`-mode scan once the stream has ended: reaching the
end of the output without having found every token yields `False`. -/
def searchLogsRun (tokens lines : List String) : Bool :=
  (searchLoopPartial tokens lines []).getD false

/-- The `subsets_in_line` mode: break with success on the first line
containing every requested substring. -/
def searchSubsetsRun (subs : List String) : List String → Bool
  | [] => false
  | line :: rest =>
    if subs.all (fun s => strHas line s) then true else searchSubsetsRun subs rest

/-- `OaiCharm.search_logs`: the argument guard raises before any output is
scanned; otherwise the mode is chosen by truthiness of `logs`. -/
def search_logs (logs subs lines : List String) : Except String Bool :=
  if !logs.isEmpty && !subs.isEmpty then
    .error "logs and subsets_in_line cannot both be defined"
  else if logs.isEmpty && subs.isEmpty then
    .error "logs or subsets_in_line must be defined"
  else if !logs.isEmpty then .ok (searchLogsRun logs lines)
  else .ok (searchSubsetsRun subs lines)

/-- `Except` value carries a result (no exception was raised). -/
def exceptOk : Except String Bool → Bool
  | .ok _ => true
  | .error _ => false

/-- The claim that the wait-mode scan never comes back on the given stream:
after consuming any finite number of lines of the followed output it is
still scanning. -/
def scanNeverReturns (tokens : List String) (stream : Nat → String) : Prop :=
  ∀ n : Nat, searchLoopPartial tokens ((List.range n).map stream) [] = none

/-! ## Common charm machinery -/

/-- `ops.model` unit statuses carrying their message. -/
inductive Status where
  | active : Status
  | blocked : String → Status
  | waiting : String → Status
  | maintenance : String → Status
deriving Repr, DecidableEq

/-- Exceptions a pebble-backed operation can raise:
`ops.pebble.ConnectionError` (socket unreachable) and `ops.model.ModelError`
(`get_service` on a service that is not in the plan). -/
inductive Exc where
  | connectionError : Exc
  | modelError : Exc
deriving Repr, DecidableEq

/-- How a reconciliation pass hands control back: normally, by deferring the
triggering event, or by an exception escaping the handler. -/
inductive Outcome where
  | ok : Outcome
  | deferred : Outcome
  | raised : Exc → Outcome
deriving Repr, DecidableEq

/-- Observable operations a pass performs on the workload and the relation
store. -/
inductive Action where
  | configure : List (String × Option String) → Action
  | startSvc : String → Action
  | stopSvc : String → Action
  | publish : String → KVMap → Action
deriving Repr, DecidableEq

def isStartAction : Action → Bool
  | .startSvc _ => true
  | _ => false

def isPublishAction : Action → Bool
  | .publish _ _ => true
  | _ => false

/-- The pebble socket never fails. -/
def availAlways : Nat → Bool := fun _ => true

/-! ## OaiAmfCharm (oai-amf-operator/src/charm.py) -/

/-- The AMF charm's `StoredState` relation-data cache. -/
structure AmfStored where
  nrf_host : Option String
  nrf_port : Option String
  nrf_api_version : Option String
  db_host : Option String
  db_port : Option String
  db_user : Option String
  db_password : Option String
  db_database : Option String
deriving Repr, DecidableEq

/-- `OaiAmfCharm._load_nrf_data`: copy `host`/`port`/`api-version` of the
`nrf` relation's remote application databag into the stored cache, or clear
the cache when there is no such relation databag. -/
def amfLoadNrfData (rel : Option KVMap) (st : AmfStored) : AmfStored :=
  match rel with
  | some d =>
    { st with nrf_host := kvGet d "host", nrf_port := kvGet d "port",
              nrf_api_version := kvGet d "api-version" }
  | none =>
    { st with nrf_host := none, nrf_port := none, nrf_api_version := none }

/-- `OaiAmfCharm._load_db_data`. -/
def amfLoadDbData (rel : Option KVMap) (st : AmfStored) : AmfStored :=
  match rel with
  | some d =>
    { st with db_host := kvGet d "host", db_port := kvGet d "port",
              db_user := kvGet d "user", db_password := kvGet d "password",
              db_database := kvGet d "database" }
  | none =>
    { st with db_host := none, db_port := none, db_user := none,
              db_password := none, db_database := none }

/-- `OaiAmfCharm.is_nrf_ready` (truthiness of the three cached values). -/
def amfIsNrfReady (st : AmfStored) : Bool :=
  truthy st.nrf_host && truthy st.nrf_port && truthy st.nrf_api_version

/-- `OaiAmfCharm.is_db_ready`. -/
def amfIsDbReady (st : AmfStored) : Bool :=
  truthy st.db_host && truthy st.db_port && truthy st.db_user &&
    truthy st.db_password && truthy st.db_database

/-- The dependency-resolution step of `OaiAmfCharm._update_service`
(`_load_nrf_data`; `_load_db_data`; `is_nrf_ready and is_db_ready`),
returning the verdict together with the stored cache it leaves behind. -/
def amfResolveDeps (nrfRel dbRel : Option KVMap) (st : AmfStored) : Bool × AmfStored :=
  let st1 := amfLoadDbData dbRel (amfLoadNrfData nrfRel st)
  (amfIsNrfReady st1 && amfIsDbReady st1, st1)

/-- The verdict of the nrf readiness predicate as a function of the relation
databag alone. -/
def amfNrfVerdict : Option KVMap → Bool
  | none => false
  | some d => truthy (kvGet d "host") && truthy (kvGet d "port") &&
      truthy (kvGet d "api-version")

/-- The verdict of the db readiness predicate as a function of the relation
databag alone. -/
def amfDbVerdict : Option KVMap → Bool
  | none => false
  | some d => truthy (kvGet d "host") && truthy (kvGet d "port") &&
      truthy (kvGet d "user") && truthy (kvGet d "password") &&
      truthy (kvGet d "database")

/-- Loading both relation caches overwrites every field the readiness
predicates read, so the loaded cache does not depend on the previous one. -/
def amfStoredOf (nrfRel dbRel : Option KVMap) : AmfStored :=
  amfLoadDbData dbRel (amfLoadNrfData nrfRel
    ⟨none, none, none, none, none, none, none, none⟩)

/-- The full external/observable state of the AMF unit. -/
structure AmfState where
  appName : String
  stored : AmfStored
  status : Status
  /-- remote application databag of the `nrf` relation, when present -/
  nrfRel : Option KVMap
  /-- remote application databag of the `db` relation, when present -/
  dbRel : Option KVMap
  /-- this app's databags of the joined `amf` relations (provided channel) -/
  amfRels : List KVMap
  /-- services present in the `amf` container's pebble plan -/
  plan : List String
  /-- services currently running in the `amf` container -/
  running : List String
  isLeader : Bool
  /-- `unit-get private-address`; `none` models an unusable address -/
  podIp : Option String
  /-- outcome of `search_logs({"amf_n2 started", ...}, wait=True)` on the
  live stream: the activation tokens eventually all appear -/
  logsActive : Bool
deriving Repr, DecidableEq

/-- Resolver verdict of the pass (`is_nrf_ready and is_db_ready` after the
two loads). -/
def amfDepsReady (s : AmfState) : Bool :=
  amfNrfVerdict s.nrfRel && amfDbVerdict s.dbRel

/-- Environment written by `OaiAmfCharm._configure_service` (merge layer). -/
def amfConfigureEnv (st : AmfStored) : List (String × Option String) :=
  [("NRF_FQDN", st.nrf_host), ("NRF_IPV4_ADDRESS", some "0.0.0.0"),
   ("NRF_PORT", st.nrf_port), ("NRF_API_VERSION", st.nrf_api_version),
   ("MYSQL_SERVER", st.db_host), ("MYSQL_USER", st.db_user),
   ("MYSQL_PASS", st.db_password), ("MYSQL_DB", st.db_database)]

/-- Databag write of `OaiAmfCharm._provide_service_info` on one `amf`
relation (`host`, `ip-address`, `port = str(HTTP1_PORT)`, `api-version`). -/
def amfPublishData (appName ip : String) (d : KVMap) : KVMap :=
  kvSet (kvSet (kvSet (kvSet d "host" appName) "ip-address" ip) "port" "80")
    "api-version" "v1"

/-- Result of one `OaiAmfCharm._update_service` pass. -/
structure AmfResult where
  state : AmfState
  outcome : Outcome
  trace : List Action
deriving Repr, DecidableEq

/-- Is `oai_amf` in the plan and running (`OaiCharm.is_service_running`)? -/
def amfRunning (s : AmfState) : Bool :=
  s.plan.contains "oai_amf" && s.running.contains "oai_amf"

/-- The dependencies-unsatisfied branch of `OaiAmfCharm._update_service`:
`BlockedStatus`, then stop the service if it is running.  Pebble calls (in
pass order): 1 `is_service_running`, 2 `stop_service`; a `ConnectionError`
is caught by the surrounding `try` and defers the event. -/
def amfBlockedBranch (avail : Nat → Bool) (s1 : AmfState) : AmfResult :=
  let s2 := { s1 with status := .blocked "need nrf and db relations" }
  if !avail 1 then ⟨s2, .deferred, []⟩
  else if amfRunning s2 then
    if !avail 2 then ⟨s2, .deferred, []⟩
    else ⟨{ s2 with running := s2.running.filter (fun n => n != "oai_amf") },
          .ok, [.stopSvc "oai_amf"]⟩
  else ⟨s2, .ok, []⟩

/-- The leader's `_provide_service_info` after `_wait_until_service_is_active`:
publish host/ip-address/port/api-version into every `amf` relation when the
pod address is usable. -/
def amfPublishStep (s5 : AmfState) (tr : List Action) : AmfResult :=
  if s5.isLeader then
    match s5.podIp with
    | some ip =>
      ⟨{ s5 with amfRels := s5.amfRels.map (amfPublishData s5.appName ip) },
       .ok, tr ++ [.publish "amf"
         [("host", s5.appName), ("ip-address", ip), ("port", "80"),
          ("api-version", "v1")]]⟩
    | none => ⟨s5, .ok, tr⟩
  else ⟨s5, .ok, tr⟩

/-- The dependencies-satisfied branch of `OaiAmfCharm._update_service`:
when the service is not already running, configure, start, wait for the
activation tokens (`ActiveStatus` on success,
`BlockedStatus("service couldn't start")` otherwise) and publish.  Pebble
calls: 1 `is_service_running`, 2 `_configure_service`, 3 `start_service`;
`ConnectionError` defers via the surrounding `try`. -/
def amfStartBranch (avail : Nat → Bool) (s1 : AmfState) : AmfResult :=
  if !avail 1 then ⟨s1, .deferred, []⟩
  else if amfRunning s1 then ⟨s1, .ok, []⟩
  else if !avail 2 then ⟨s1, .deferred, []⟩
  else if !avail 3 then ⟨s1, .deferred, [.configure (amfConfigureEnv s1.stored)]⟩
  else
    let s4 := { s1 with running := "oai_amf" :: s1.running }
    let s5 := if s4.logsActive then { s4 with status := .active }
              else { s4 with status := .blocked "service couldn't start" }
    amfPublishStep s5 [.configure (amfConfigureEnv s1.stored), .startSvc "oai_amf"]

/-- `OaiAmfCharm._update_service`.  The whole body runs inside
`try: ... except ConnectionError: event.defer()`, so a pebble failure at any
operation turns the pass into a deferral, keeping whatever state had already
been written.  Pebble call 0 is `service_exists` (get_plan); when the
service is missing the pass logs and returns.  The two `_load_*_data` calls
touch only the stored cache, then the branch on
`is_nrf_ready and is_db_ready` follows. -/
def amfUpdate (avail : Nat → Bool) (s : AmfState) : AmfResult :=
  if !avail 0 then ⟨s, .deferred, []⟩
  else if !s.plan.contains "oai_amf" then ⟨s, .ok, []⟩
  else
    let s1 := { s with stored := amfLoadDbData s.dbRel (amfLoadNrfData s.nrfRel s.stored) }
    if !(amfIsNrfReady s1.stored && amfIsDbReady s1.stored) then amfBlockedBranch avail s1
    else amfStartBranch avail s1

/-! ## OaiSmfCharm (oai-smf-operator/src/charm.py) -/

/-- The SMF charm's `StoredState` relation-data cache. -/
structure SmfStored where
  amf_host : Option String
  amf_port : Option String
  amf_api_version : Option String
  nrf_host : Option String
  nrf_port : Option String
  nrf_api_version : Option String
deriving Repr, DecidableEq

/-- `OaiSmfCharm._load_amf_data`. -/
def smfLoadAmfData (rel : Option KVMap) (st : SmfStored) : SmfStored :=
  match rel with
  | some d =>
    { st with amf_host := kvGet d "host", amf_port := kvGet d "port",
              amf_api_version := kvGet d "api-version" }
  | none =>
    { st with amf_host := none, amf_port := none, amf_api_version := none }

/-- `OaiSmfCharm._load_nrf_data`. -/
def smfLoadNrfData (rel : Option KVMap) (st : SmfStored) : SmfStored :=
  match rel with
  | some d =>
    { st with nrf_host := kvGet d "host", nrf_port := kvGet d "port",
              nrf_api_version := kvGet d "api-version" }
  | none =>
    { st with nrf_host := none, nrf_port := none, nrf_api_version := none }

/-- `OaiSmfCharm.is_amf_ready`. -/
def smfIsAmfReady (st : SmfStored) : Bool :=
  truthy st.amf_host && truthy st.amf_port && truthy st.amf_api_version

/-- `OaiSmfCharm.is_nrf_ready`. -/
def smfIsNrfReady (st : SmfStored) : Bool :=
  truthy st.nrf_host && truthy st.nrf_port && truthy st.nrf_api_version

/-- The dependency-resolution step of `OaiSmfCharm._update_service`
(`_load_amf_data`; `_load_nrf_data`; verdict). -/
def smfResolveDeps (amfRel nrfRel : Option KVMap) (st : SmfStored) : Bool × SmfStored :=
  let st1 := smfLoadNrfData nrfRel (smfLoadAmfData amfRel st)
  (smfIsNrfReady st1 && smfIsAmfReady st1, st1)

/-- The amf readiness verdict as a function of the databag alone. -/
def smfAmfVerdict : Option KVMap → Bool
  | none => false
  | some d => truthy (kvGet d "host") && truthy (kvGet d "port") &&
      truthy (kvGet d "api-version")

/-- The nrf readiness verdict as a function of the databag alone. -/
def smfNrfVerdict : Option KVMap → Bool
  | none => false
  | some d => truthy (kvGet d "host") && truthy (kvGet d "port") &&
      truthy (kvGet d "api-version")

/-- The cache left by the two loads does not depend on the previous cache. -/
def smfStoredOf (amfRel nrfRel : Option KVMap) : SmfStored :=
  smfLoadNrfData nrfRel (smfLoadAmfData amfRel ⟨none, none, none, none, none, none⟩)

/-- The full external/observable state of the SMF unit. -/
structure SmfState where
  stored : SmfStored
  status : Status
  /-- remote application databag of the `amf` relation, when present -/
  amfRel : Option KVMap
  /-- remote application databag of the `nrf` relation, when present -/
  nrfRel : Option KVMap
  /-- this app's databags of the joined `smf` relations (provided channel) -/
  smfRels : List KVMap
  /-- services present in the `smf` container's pebble plan -/
  plan : List String
  /-- services currently running in the `smf` container -/
  running : List String
  isLeader : Bool
deriving Repr, DecidableEq

def smfDepsReady (s : SmfState) : Bool :=
  smfNrfVerdict s.nrfRel && smfAmfVerdict s.amfRel

/-- Environment written by `OaiSmfCharm._configure_service` (merge layer). -/
def smfConfigureEnv (st : SmfStored) : List (String × Option String) :=
  [("NRF_FQDN", st.nrf_host), ("NRF_IPV4_ADDRESS", some "127.0.0.1"),
   ("NRF_PORT", st.nrf_port), ("NRF_API_VERSION", st.nrf_api_version),
   ("AMF_IPV4_ADDRESS", some "127.0.0.1"), ("AMF_PORT", st.amf_port),
   ("AMF_API_VERSION", st.amf_api_version), ("AMF_FQDN", st.amf_host)]

/-- Result of one `OaiSmfCharm._update_service` pass. -/
structure SmfResult where
  state : SmfState
  outcome : Outcome
  trace : List Action
deriving Repr, DecidableEq

/-- The tail of `OaiSmfCharm._update_service` after a successful
`container.start` (the `_start_service` call returned `True`):
`_provide_service_info(event)` — the leader checks `is_service_running`
(pebble call 4, outside any `try`) and writes `ready = str(True)` into every
`smf` relation — then `ActiveStatus`. -/
def smfAfterStart (avail : Nat → Bool) (s2 : SmfState) (tr1 : List Action) : SmfResult :=
  if s2.isLeader then
    if !avail 4 then ⟨s2, .raised .connectionError, tr1 ++ [.startSvc "oai_smf"]⟩
    else
      ⟨{ s2 with smfRels := s2.smfRels.map (fun d => kvSet d "ready" "True"),
                 status := .active },
       .ok, tr1 ++ [.startSvc "oai_smf", .publish "smf" [("ready", "True")]]⟩
  else ⟨{ s2 with status := .active }, .ok, tr1 ++ [.startSvc "oai_smf"]⟩

/-- The dependencies-satisfied branch of `OaiSmfCharm._update_service`.
Only `_configure_service` (pebble call 0) is inside
`try/except ConnectionError`; `_start_service` runs outside it, with pebble
calls 1 (`get_plan`) and 2 (`get_service` — `ModelError` when `oai_smf` is
not in the plan) and 3 (`container.start`), so a `ConnectionError` there
escapes the handler. -/
def smfReadyBranch (avail : Nat → Bool) (s1 : SmfState) : SmfResult :=
  if !avail 0 then ⟨s1, .deferred, []⟩
  else
    let tr1 : List Action :=
      if s1.plan.contains "oai_smf" then [.configure (smfConfigureEnv s1.stored)] else []
    if !avail 1 then ⟨s1, .raised .connectionError, tr1⟩
    else if !avail 2 then ⟨s1, .raised .connectionError, tr1⟩
    else if !s1.plan.contains "oai_smf" then ⟨s1, .raised .modelError, tr1⟩
    else if !s1.running.contains "oai_smf" then
      if !avail 3 then ⟨s1, .raised .connectionError, tr1⟩
      else smfAfterStart avail { s1 with running := "oai_smf" :: s1.running } tr1
    else ⟨s1, .ok, tr1⟩

/-- The dependencies-unsatisfied branch of `OaiSmfCharm._update_service`:
`_stop_service` (pebble calls 0 `get_plan`, 1 `get_service` when the service
is in the plan, 2 `container.stop` when running — all outside any `try`),
then `BlockedStatus("need nrf and amf relations")`. -/
def smfStopBranch (avail : Nat → Bool) (s1 : SmfState) : SmfResult :=
  if !avail 0 then ⟨s1, .raised .connectionError, []⟩
  else if s1.plan.contains "oai_smf" then
    if !avail 1 then ⟨s1, .raised .connectionError, []⟩
    else if s1.running.contains "oai_smf" then
      if !avail 2 then ⟨s1, .raised .connectionError, []⟩
      else ⟨{ s1 with running := s1.running.filter (fun n => n != "oai_smf"),
                      status := .blocked "need nrf and amf relations" },
            .ok, [.stopSvc "oai_smf"]⟩
    else ⟨{ s1 with status := .blocked "need nrf and amf relations" }, .ok, []⟩
  else ⟨{ s1 with status := .blocked "need nrf and amf relations" }, .ok, []⟩

/-- `OaiSmfCharm._update_service`: load `amf` and `nrf` caches (no pebble
state touched), then branch on `is_nrf_ready and is_amf_ready`. -/
def smfUpdate (avail : Nat → Bool) (s : SmfState) : SmfResult :=
  let s1 := { s with stored := smfLoadNrfData s.nrfRel (smfLoadAmfData s.amfRel s.stored) }
  if smfIsNrfReady s1.stored && smfIsAmfReady s1.stored then smfReadyBranch avail s1
  else smfStopBranch avail s1

/-! ## OaiSpgwuTinyCharm (oai-spgwu-tiny-operator/src/charm.py) -/

/-- The SPGWU charm's `StoredState` relation-data cache.  The `smf` flag is
stored as the Boolean `relation_data.get("ready") == "True"`. -/
structure SpgwuStored where
  nrf_host : Option String
  nrf_port : Option String
  nrf_api_version : Option String
  smf_ready : Bool
deriving Repr, DecidableEq

/-- `OaiSpgwuTinyCharm._load_nrf_data`. -/
def spgwuLoadNrfData (rel : Option KVMap) (st : SpgwuStored) : SpgwuStored :=
  match rel with
  | some d =>
    { st with nrf_host := kvGet d "host", nrf_port := kvGet d "port",
              nrf_api_version := kvGet d "api-version" }
  | none =>
    { st with nrf_host := none, nrf_port := none, nrf_api_version := none }

/-- `OaiSpgwuTinyCharm._load_smf_data`. -/
def spgwuLoadSmfData (rel : Option KVMap) (st : SpgwuStored) : SpgwuStored :=
  match rel with
  | some d => { st with smf_ready := kvGet d "ready" == some "True" }
  | none => { st with smf_ready := false }

/-- `OaiSpgwuTinyCharm.is_nrf_ready`. -/
def spgwuIsNrfReady (st : SpgwuStored) : Bool :=
  truthy st.nrf_host && truthy st.nrf_port && truthy st.nrf_api_version

/-- `OaiSpgwuTinyCharm.is_smf_ready`. -/
def spgwuIsSmfReady (st : SpgwuStored) : Bool :=
  st.smf_ready

def spgwuNrfVerdict : Option KVMap → Bool
  | none => false
  | some d => truthy (kvGet d "host") && truthy (kvGet d "port") &&
      truthy (kvGet d "api-version")

def spgwuSmfVerdict : Option KVMap → Bool
  | none => false
  | some d => kvGet d "ready" == some "True"

/-- The full external/observable state of the SPGWU unit. -/
structure SpgwuState where
  stored : SpgwuStored
  status : Status
  nrfRel : Option KVMap
  smfRel : Option KVMap
  /-- this app's databags of the joined `spgwu` relations -/
  spgwuRels : List KVMap
  plan : List String
  running : List String
  isLeader : Bool
deriving Repr, DecidableEq

def spgwuDepsReady (s : SpgwuState) : Bool :=
  spgwuNrfVerdict s.nrfRel && spgwuSmfVerdict s.smfRel

/-- Environment written by `OaiSpgwuTinyCharm._configure_service`. -/
def spgwuConfigureEnv (st : SpgwuStored) : List (String × Option String) :=
  [("REGISTER_NRF", some "yes"), ("USE_FQDN_NRF", some "yes"),
   ("NRF_FQDN", st.nrf_host), ("NRF_IPV4_ADDRESS", some "127.0.0.1"),
   ("NRF_PORT", st.nrf_port), ("NRF_API_VERSION", st.nrf_api_version)]

structure SpgwuResult where
  state : SpgwuState
  outcome : Outcome
  trace : List Action
deriving Repr, DecidableEq

/-- Tail of the SPGWU ready branch after a successful start:
`_provide_service_info(event)` (leader: `is_service_running` is pebble call
4, then `ready = str(True)` into every `spgwu` relation), then
`ActiveStatus`. -/
def spgwuAfterStart (avail : Nat → Bool) (s2 : SpgwuState) (tr1 : List Action) : SpgwuResult :=
  if s2.isLeader then
    if !avail 4 then
      ⟨s2, .raised .connectionError, tr1 ++ [.startSvc "oai_spgwu_tiny"]⟩
    else
      ⟨{ s2 with spgwuRels := s2.spgwuRels.map (fun d => kvSet d "ready" "True"),
                 status := .active },
       .ok, tr1 ++ [.startSvc "oai_spgwu_tiny", .publish "spgwu" [("ready", "True")]]⟩
  else ⟨{ s2 with status := .active }, .ok, tr1 ++ [.startSvc "oai_spgwu_tiny"]⟩

/-- The dependencies-satisfied branch of `OaiSpgwuTinyCharm._update_service`
(same shape as the SMF one: only `_configure_service` is in the `try`, and
`_start_service` evaluates `get_service` before the existence check). -/
def spgwuReadyBranch (avail : Nat → Bool) (s1 : SpgwuState) : SpgwuResult :=
  if !avail 0 then ⟨s1, .deferred, []⟩
  else
    let tr1 : List Action :=
      if s1.plan.contains "oai_spgwu_tiny" then
        [.configure (spgwuConfigureEnv s1.stored)]
      else []
    if !avail 1 then ⟨s1, .raised .connectionError, tr1⟩
    else if !avail 2 then ⟨s1, .raised .connectionError, tr1⟩
    else if !s1.plan.contains "oai_spgwu_tiny" then ⟨s1, .raised .modelError, tr1⟩
    else if !s1.running.contains "oai_spgwu_tiny" then
      if !avail 3 then ⟨s1, .raised .connectionError, tr1⟩
      else spgwuAfterStart avail { s1 with running := "oai_spgwu_tiny" :: s1.running } tr1
    else ⟨s1, .ok, tr1⟩

/-- The dependencies-unsatisfied branch of
`OaiSpgwuTinyCharm._update_service`: `_stop_service`, then
`BlockedStatus("need nrf and smf relations")`. -/
def spgwuStopBranch (avail : Nat → Bool) (s1 : SpgwuState) : SpgwuResult :=
  if !avail 0 then ⟨s1, .raised .connectionError, []⟩
  else if s1.plan.contains "oai_spgwu_tiny" then
    if !avail 1 then ⟨s1, .raised .connectionError, []⟩
    else if s1.running.contains "oai_spgwu_tiny" then
      if !avail 2 then ⟨s1, .raised .connectionError, []⟩
      else ⟨{ s1 with running := s1.running.filter (fun n => n != "oai_spgwu_tiny"),
                      status := .blocked "need nrf and smf relations" },
            .ok, [.stopSvc "oai_spgwu_tiny"]⟩
    else ⟨{ s1 with status := .blocked "need nrf and smf relations" }, .ok, []⟩
  else ⟨{ s1 with status := .blocked "need nrf and smf relations" }, .ok, []⟩

/-- `OaiSpgwuTinyCharm._update_service`: identical control structure to the
SMF pass, with the `nrf`/`smf` dependencies and the `spgwu` provided
channel. -/
def spgwuUpdate (avail : Nat → Bool) (s : SpgwuState) : SpgwuResult :=
  let s1 := { s with stored := spgwuLoadSmfData s.smfRel (spgwuLoadNrfData s.nrfRel s.stored) }
  if spgwuIsNrfReady s1.stored && spgwuIsSmfReady s1.stored then spgwuReadyBranch avail s1
  else spgwuStopBranch avail s1

/-! ## OaiNrUeCharm (oai-nr-ue-operator/src/charm.py) -/

/-- The NR-UE charm's `StoredState` relation-data cache. -/
structure UeStored where
  gnb_host : Option String
  gnb_port : Option String
  gnb_api_version : Option String
deriving Repr, DecidableEq

/-- `OaiNrUeCharm._load_gnb_data`. -/
def ueLoadGnbData (rel : Option KVMap) (st : UeStored) : UeStored :=
  match rel with
  | some d =>
    { st with gnb_host := kvGet d "host", gnb_port := kvGet d "port",
              gnb_api_version := kvGet d "api-version" }
  | none =>
    { st with gnb_host := none, gnb_port := none, gnb_api_version := none }

/-- `OaiNrUeCharm.is_gnb_ready` (only the host is required). -/
def ueIsGnbReady (st : UeStored) : Bool :=
  truthy st.gnb_host

def ueGnbVerdict : Option KVMap → Bool
  | none => false
  | some d => truthy (kvGet d "host")

/-- The full external/observable state of the NR-UE unit. -/
structure UeState where
  stored : UeStored
  status : Status
  gnbRel : Option KVMap
  plan : List String
  running : List String
deriving Repr, DecidableEq

structure UeResult where
  state : UeState
  outcome : Outcome
  trace : List Action
deriving Repr, DecidableEq

/-- The gnb-satisfied branch of `OaiNrUeCharm._update_service`: configure
(in the `try`), `_start_service` (its return value ignored; `get_service`
before the existence check raises `ModelError` when `oai_nr_ue` is not in
the plan), then `ActiveStatus` unconditionally. -/
def ueReadyBranch (avail : Nat → Bool) (s1 : UeState) : UeResult :=
  if !avail 0 then ⟨s1, .deferred, []⟩
  else
    let tr1 : List Action :=
      if s1.plan.contains "oai_nr_ue" then
        [.configure [("RFSIMULATOR", s1.stored.gnb_host)]]
      else []
    if !avail 1 then ⟨s1, .raised .connectionError, tr1⟩
    else if !avail 2 then ⟨s1, .raised .connectionError, tr1⟩
    else if !s1.plan.contains "oai_nr_ue" then ⟨s1, .raised .modelError, tr1⟩
    else if !s1.running.contains "oai_nr_ue" then
      if !avail 3 then ⟨s1, .raised .connectionError, tr1⟩
      else ⟨{ s1 with running := "oai_nr_ue" :: s1.running, status := .active },
            .ok, tr1 ++ [.startSvc "oai_nr_ue"]⟩
    else ⟨{ s1 with status := .active }, .ok, tr1⟩

/-- The gnb-unsatisfied branch of `OaiNrUeCharm._update_service`:
`_stop_service`, then `BlockedStatus("need gnb relation")`. -/
def ueStopBranch (avail : Nat → Bool) (s1 : UeState) : UeResult :=
  if !avail 0 then ⟨s1, .raised .connectionError, []⟩
  else if s1.plan.contains "oai_nr_ue" then
    if !avail 1 then ⟨s1, .raised .connectionError, []⟩
    else if s1.running.contains "oai_nr_ue" then
      if !avail 2 then ⟨s1, .raised .connectionError, []⟩
      else ⟨{ s1 with running := s1.running.filter (fun n => n != "oai_nr_ue"),
                      status := .blocked "need gnb relation" },
            .ok, [.stopSvc "oai_nr_ue"]⟩
    else ⟨{ s1 with status := .blocked "need gnb relation" }, .ok, []⟩
  else ⟨{ s1 with status := .blocked "need gnb relation" }, .ok, []⟩

/-- `OaiNrUeCharm._update_service`: load the `gnb` cache, then branch on
`is_gnb_ready`. -/
def ueUpdate (avail : Nat → Bool) (s : UeState) : UeResult :=
  let s1 := { s with stored := ueLoadGnbData s.gnbRel s.stored }
  if ueIsGnbReady s1.stored then ueReadyBranch avail s1
  else ueStopBranch avail s1

/-- Is `oai_smf` in the plan and running (`OaiSmfCharm.is_service_running`)? -/
def smfRunning (s : SmfState) : Bool :=
  s.plan.contains "oai_smf" && s.running.contains "oai_smf"

/-- Is `oai_spgwu_tiny` in the plan and running
(`OaiSpgwuTinyCharm.is_service_running`)? -/
def spgwuRunning (s : SpgwuState) : Bool :=
  s.plan.contains "oai_spgwu_tiny" && s.running.contains "oai_spgwu_tiny"

/-- The cache left by the two SPGWU loads does not depend on the previous
cache. -/
def spgwuStoredOf (nrfRel smfRel : Option KVMap) : SpgwuStored :=
  spgwuLoadSmfData smfRel (spgwuLoadNrfData nrfRel ⟨none, none, none, false⟩)

/-- The cache left by the UE load does not depend on the previous cache. -/
def ueStoredOf (gnbRel : Option KVMap) : UeStored :=
  ueLoadGnbData gnbRel ⟨none, none, none⟩

/-! ## OaiNrfCharm (oai-nrf-operator/src/charm.py) -/

/-- The full external/observable state of the NRF unit (it has no
dependencies; `_update_service` just starts the service when it exists and
is not yet running, then publishes and goes Active). -/
structure NrfState where
  appName : String
  status : Status
  /-- this app's databags of the joined `nrf` relations -/
  nrfRels : List KVMap
  plan : List String
  running : List String
  isLeader : Bool
deriving Repr, DecidableEq

structure NrfResult where
  state : NrfState
  outcome : Outcome
  trace : List Action
deriving Repr, DecidableEq

/-- `OaiNrfCharm._provide_service_info` databag writes. -/
def nrfProvide (appName : String) (rels : List KVMap) : List KVMap :=
  rels.map (fun d => kvSet (kvSet (kvSet d "host" appName) "port" "80") "api-version" "v1")

/-- `OaiNrfCharm._update_service`: `_start_service` (its `get_service` call
is correctly guarded by `service_exists`, so no `ModelError` arises) starts
the service only when it exists and is not running, returning `True` exactly
then; only in that case the pass sets `WaitingStatus`, sleeps, publishes
(leader and `is_service_running`, pebble call 3) and sets `ActiveStatus`.
Pebble calls: 0 `get_plan`, 1 `get_service` (when the service exists),
2 `container.start`. -/
def nrfUpdate (avail : Nat → Bool) (s : NrfState) : NrfResult :=
  if !avail 0 then ⟨s, .raised .connectionError, []⟩
  else if s.plan.contains "oai_nrf" then
    if !avail 1 then ⟨s, .raised .connectionError, []⟩
    else if !s.running.contains "oai_nrf" then
      if !avail 2 then ⟨s, .raised .connectionError, []⟩
      else
        let s2 :=
          { s with
            running := "oai_nrf" :: s.running,
            status := .waiting "waiting 30 seconds for the service to start" }
        if s2.isLeader then
          if !avail 3 then ⟨s2, .raised .connectionError, [.startSvc "oai_nrf"]⟩
          else ⟨{ s2 with nrfRels := nrfProvide s2.appName s2.nrfRels, status := .active },
                .ok, [.startSvc "oai_nrf",
                      .publish "nrf" [("host", s2.appName), ("port", "80"),
                                      ("api-version", "v1")]]⟩
        else ⟨{ s2 with status := .active }, .ok, [.startSvc "oai_nrf"]⟩
    else ⟨s, .ok, []⟩
  else ⟨s, .ok, []⟩

/-! ## Sample stored caches used by witnesses -/

def amfStored0 : AmfStored := ⟨none, none, none, none, none, none, none, none⟩

def smfStored0 : SmfStored := ⟨none, none, none, none, none, none⟩

def ueStored0 : UeStored := ⟨none, none, none⟩

/-! ## The AMF readiness publisher -/

/-- `OaiAmfCharm._provide_service_info`: when the pod address is usable,
write `host`/`ip-address`/`port`/`api-version` into this app's databag of
every joined `amf` relation. -/
def amfProvideServiceInfo (appName : String) (podIp : Option String)
    (rels : List KVMap) : List KVMap :=
  match podIp with
  | some ip => rels.map (amfPublishData appName ip)
  | none => rels

/-! ## Sample unit states used by witnesses and counterexamples -/

/-- AMF unit whose dependencies have vanished while the service runs. -/
def amfStateDepsGone : AmfState :=
  { appName := "oai-amf",
    stored := ⟨some "h", some "80", some "v1", some "db", some "3306",
               some "u", some "p", some "d"⟩,
    status := .active, nrfRel := none, dbRel := none, amfRels := [],
    plan := ["oai_amf"], running := ["oai_amf"], isLeader := true,
    podIp := some "1.2.3.4", logsActive := true }

def smfStateAny : SmfState :=
  { stored := smfStored0, status := .active, amfRel := none, nrfRel := none,
    smfRels := [], plan := [], running := [], isLeader := false }

def spgwuStateAny : SpgwuState :=
  { stored := ⟨none, none, none, false⟩, status := .active, nrfRel := none,
    smfRel := none, spgwuRels := [], plan := [], running := [],
    isLeader := false }

/-- Pebble is reachable except at the fourth pebble-backed operation of the
pass (`container.start` on the SMF ready path). -/
def availFailAt3 : Nat → Bool := fun n => n != 3

/-- Concrete SMF state: both dependencies satisfied, service in the plan and
not running, so the pass reaches `container.start`. -/
def smfStateEx : SmfState :=
  { stored := smfStored0, status := .blocked "need nrf and amf relations",
    amfRel := some [("host", "oai-amf"), ("port", "80"), ("api-version", "v1")],
    nrfRel := some [("host", "oai-nrf"), ("port", "80"), ("api-version", "v1")],
    smfRels := [[]], plan := ["oai_smf"], running := [], isLeader := true }

/-- Idle AMF state used by the C2 witness. -/
def amfStateIdle : AmfState :=
  { appName := "oai-amf", stored := amfStored0, status := .active,
    nrfRel := none, dbRel := none, amfRels := [], plan := ["oai_amf"],
    running := ["oai_amf"], isLeader := false, podIp := none,
    logsActive := false }

/-- Pebble is unreachable at the first pebble-backed operation. -/
def availFailAt0 : Nat → Bool := fun n => n != 0

/-- NR-UE unit whose gnb dependency is satisfied but whose pebble plan does
not yet hold the `oai_nr_ue` service definition. -/
def ueStateNoService : UeState :=
  { stored := ueStored0, status := .blocked "need gnb relation",
    gnbRel := some [("host", "gnb")], plan := [], running := [] }

/-- AMF unit with satisfied dependencies and no service definition yet. -/
def amfStateNoService : AmfState :=
  { appName := "oai-amf", stored := amfStored0, status := .waiting "setup",
    nrfRel := some [("host", "oai-nrf"), ("port", "80"), ("api-version", "v1")],
    dbRel := some [("host", "db"), ("port", "3306"), ("user", "u"),
                   ("password", "p"), ("database", "d")],
    amfRels := [], plan := [], running := [], isLeader := true,
    podIp := some "1.2.3.4", logsActive := true }

theorem containsIffMem (l : List String) (a : String) : l.contains a = true ↔ a ∈ l := by
  simp [List.elem_iff, List.contains]

theorem kvGet_kvSet_self (m : KVMap) (k v : String) :
    kvGet (kvSet m k v) k = some v := by
  induction m with
  | nil => simp [kvGet, kvSet]
  | cons hd tl ih =>
    obtain ⟨k', v'⟩ := hd
    by_cases h : k' = k
    · simp [kvGet, kvSet, h]
    · simp [kvGet, kvSet, h, ih]

theorem kvGet_kvSet_ne (m : KVMap) (k k' v : String) (h : k ≠ k') :
    kvGet (kvSet m k v) k' = kvGet m k' := by
  induction m with
  | nil => simp [kvGet, kvSet, h]
  | cons hd tl ih =>
    obtain ⟨ka, va⟩ := hd
    by_cases hk : ka = k
    · subst hk
      simp [kvGet, kvSet, h]
    · simp [kvGet, kvSet, hk, ih]

theorem amfIsNrfReady_load (rel : Option KVMap) (st : AmfStored) :
    amfIsNrfReady (amfLoadNrfData rel st) = amfNrfVerdict rel := by
  cases rel <;> rfl

theorem amfIsNrfReady_loadDb (rel : Option KVMap) (st : AmfStored) :
    amfIsNrfReady (amfLoadDbData rel st) = amfIsNrfReady st := by
  cases rel <;> rfl

theorem amfIsDbReady_load (rel : Option KVMap) (st : AmfStored) :
    amfIsDbReady (amfLoadDbData rel st) = amfDbVerdict rel := by
  cases rel <;> rfl

theorem amfLoad_const (nrfRel dbRel : Option KVMap) (st : AmfStored) :
    amfLoadDbData dbRel (amfLoadNrfData nrfRel st) = amfStoredOf nrfRel dbRel := by
  cases nrfRel <;> cases dbRel <;> rfl

theorem smfIsAmfReady_load (amfRel nrfRel : Option KVMap) (st : SmfStored) :
    smfIsAmfReady (smfLoadNrfData nrfRel (smfLoadAmfData amfRel st)) =
      smfAmfVerdict amfRel := by
  cases amfRel <;> cases nrfRel <;> rfl

theorem smfIsNrfReady_load (amfRel nrfRel : Option KVMap) (st : SmfStored) :
    smfIsNrfReady (smfLoadNrfData nrfRel (smfLoadAmfData amfRel st)) =
      smfNrfVerdict nrfRel := by
  cases amfRel <;> cases nrfRel <;> rfl

theorem smfLoad_const (amfRel nrfRel : Option KVMap) (st : SmfStored) :
    smfLoadNrfData nrfRel (smfLoadAmfData amfRel st) = smfStoredOf amfRel nrfRel := by
  cases amfRel <;> cases nrfRel <;> rfl

theorem spgwuIsNrfReady_load (nrfRel smfRel : Option KVMap) (st : SpgwuStored) :
    spgwuIsNrfReady (spgwuLoadSmfData smfRel (spgwuLoadNrfData nrfRel st)) =
      spgwuNrfVerdict nrfRel := by
  cases nrfRel <;> cases smfRel <;> rfl

theorem spgwuIsSmfReady_load (nrfRel smfRel : Option KVMap) (st : SpgwuStored) :
    spgwuIsSmfReady (spgwuLoadSmfData smfRel (spgwuLoadNrfData nrfRel st)) =
      spgwuSmfVerdict smfRel := by
  cases nrfRel <;> cases smfRel <;> rfl

theorem ueIsGnbReady_load (rel : Option KVMap) (st : UeStored) :
    ueIsGnbReady (ueLoadGnbData rel st) = ueGnbVerdict rel := by
  cases rel <;> rfl

theorem spgwuLoad_const (nrfRel smfRel : Option KVMap) (st : SpgwuStored) :
    spgwuLoadSmfData smfRel (spgwuLoadNrfData nrfRel st) = spgwuStoredOf nrfRel smfRel := by
  cases nrfRel <;> cases smfRel <;> rfl

theorem ueLoad_const (gnbRel : Option KVMap) (st : UeStored) :
    ueLoadGnbData gnbRel st = ueStoredOf gnbRel := by
  cases gnbRel <;> rfl

/-! ## Frame lemmas: a pass never writes the consumed relation channels -/

theorem amfBlockedBranch_rels (avail : Nat → Bool) (s1 : AmfState) :
    (amfBlockedBranch avail s1).state.nrfRel = s1.nrfRel ∧
    (amfBlockedBranch avail s1).state.dbRel = s1.dbRel := by
  simp only [amfBlockedBranch]
  split_ifs <;> exact ⟨rfl, rfl⟩

theorem amfPublishStep_rels (s5 : AmfState) (tr : List Action) :
    (amfPublishStep s5 tr).state.nrfRel = s5.nrfRel ∧
    (amfPublishStep s5 tr).state.dbRel = s5.dbRel := by
  simp only [amfPublishStep]
  split_ifs
  · cases s5.podIp <;> exact ⟨rfl, rfl⟩
  · exact ⟨rfl, rfl⟩

theorem amfStartBranch_rels (avail : Nat → Bool) (s1 : AmfState) :
    (amfStartBranch avail s1).state.nrfRel = s1.nrfRel ∧
    (amfStartBranch avail s1).state.dbRel = s1.dbRel := by
  simp only [amfStartBranch]
  split_ifs <;>
    first
      | exact ⟨rfl, rfl⟩
      | exact ⟨(amfPublishStep_rels _ _).1, (amfPublishStep_rels _ _).2⟩

theorem amfUpdate_rels (avail : Nat → Bool) (s : AmfState) :
    (amfUpdate avail s).state.nrfRel = s.nrfRel ∧
    (amfUpdate avail s).state.dbRel = s.dbRel := by
  simp only [amfUpdate]
  split_ifs <;>
    first
      | exact ⟨rfl, rfl⟩
      | exact ⟨(amfBlockedBranch_rels _ _).1, (amfBlockedBranch_rels _ _).2⟩
      | exact ⟨(amfStartBranch_rels _ _).1, (amfStartBranch_rels _ _).2⟩

theorem smfAfterStart_rels (avail : Nat → Bool) (s2 : SmfState) (tr1 : List Action) :
    (smfAfterStart avail s2 tr1).state.amfRel = s2.amfRel ∧
    (smfAfterStart avail s2 tr1).state.nrfRel = s2.nrfRel := by
  simp only [smfAfterStart]
  split_ifs <;> exact ⟨rfl, rfl⟩

theorem smfReadyBranch_rels (avail : Nat → Bool) (s1 : SmfState) :
    (smfReadyBranch avail s1).state.amfRel = s1.amfRel ∧
    (smfReadyBranch avail s1).state.nrfRel = s1.nrfRel := by
  simp only [smfReadyBranch]
  split_ifs <;>
    first
      | exact ⟨rfl, rfl⟩
      | exact ⟨(smfAfterStart_rels _ _ _).1, (smfAfterStart_rels _ _ _).2⟩

theorem smfStopBranch_rels (avail : Nat → Bool) (s1 : SmfState) :
    (smfStopBranch avail s1).state.amfRel = s1.amfRel ∧
    (smfStopBranch avail s1).state.nrfRel = s1.nrfRel := by
  simp only [smfStopBranch]
  split_ifs <;> exact ⟨rfl, rfl⟩

theorem smfUpdate_rels (avail : Nat → Bool) (s : SmfState) :
    (smfUpdate avail s).state.amfRel = s.amfRel ∧
    (smfUpdate avail s).state.nrfRel = s.nrfRel := by
  simp only [smfUpdate]
  split_ifs <;>
    first
      | exact ⟨(smfReadyBranch_rels _ _).1, (smfReadyBranch_rels _ _).2⟩
      | exact ⟨(smfStopBranch_rels _ _).1, (smfStopBranch_rels _ _).2⟩

/-! ## Behavioural lemmas about the passes -/

theorem contains_filter_ne (l : List String) (x : String) :
    (l.filter (fun n => n != x)).contains x = false := by
  rw [Bool.eq_false_iff]
  intro hc
  have hmem := (containsIffMem _ _).mp hc
  have h2 := (List.mem_filter.mp hmem).2
  simp at h2

/-- Normal form of the AMF pass: early exits, then the branch selected by
the resolver verdict, on the state with the reloaded cache. -/
theorem amfUpdate_eq (avail : Nat → Bool) (s : AmfState) :
    amfUpdate avail s =
      if !avail 0 then ⟨s, .deferred, []⟩
      else if !s.plan.contains "oai_amf" then ⟨s, .ok, []⟩
      else if amfDepsReady s then
        amfStartBranch avail { s with stored := amfStoredOf s.nrfRel s.dbRel }
      else amfBlockedBranch avail { s with stored := amfStoredOf s.nrfRel s.dbRel } := by
  simp only [amfUpdate, amfDepsReady]
  rw [amfIsNrfReady_loadDb, amfIsNrfReady_load, amfIsDbReady_load, amfLoad_const]
  by_cases hv : (amfNrfVerdict s.nrfRel && amfDbVerdict s.dbRel) = true
  · simp [hv]
  · simp [Bool.eq_false_iff.mpr hv]

/-- Normal form of the SMF pass. -/
theorem smfUpdate_eq (avail : Nat → Bool) (s : SmfState) :
    smfUpdate avail s =
      if smfDepsReady s then
        smfReadyBranch avail { s with stored := smfStoredOf s.amfRel s.nrfRel }
      else smfStopBranch avail { s with stored := smfStoredOf s.amfRel s.nrfRel } := by
  simp only [smfUpdate, smfDepsReady]
  rw [smfIsNrfReady_load, smfIsAmfReady_load, smfLoad_const]

/-- Normal form of the SPGWU pass. -/
theorem spgwuUpdate_eq (avail : Nat → Bool) (s : SpgwuState) :
    spgwuUpdate avail s =
      if spgwuDepsReady s then
        spgwuReadyBranch avail { s with stored := spgwuStoredOf s.nrfRel s.smfRel }
      else spgwuStopBranch avail { s with stored := spgwuStoredOf s.nrfRel s.smfRel } := by
  simp only [spgwuUpdate, spgwuDepsReady]
  rw [spgwuIsNrfReady_load, spgwuIsSmfReady_load, spgwuLoad_const]

/-- Normal form of the UE pass. -/
theorem ueUpdate_eq (avail : Nat → Bool) (s : UeState) :
    ueUpdate avail s =
      if ueGnbVerdict s.gnbRel then
        ueReadyBranch avail { s with stored := ueStoredOf s.gnbRel }
      else ueStopBranch avail { s with stored := ueStoredOf s.gnbRel } := by
  simp only [ueUpdate]
  rw [ueIsGnbReady_load, ueLoad_const]

theorem amfPublishStep_outcome (s5 : AmfState) (tr : List Action) :
    (amfPublishStep s5 tr).outcome = .ok := by
  simp only [amfPublishStep]
  split_ifs
  · cases s5.podIp <;> rfl
  · rfl

theorem amfPublishStep_post (s5 : AmfState) (tr : List Action) :
    (amfPublishStep s5 tr).outcome = .ok ∧
    (amfPublishStep s5 tr).state.status = s5.status ∧
    (amfPublishStep s5 tr).state.plan = s5.plan ∧
    (amfPublishStep s5 tr).state.running = s5.running := by
  simp only [amfPublishStep]
  split_ifs
  · cases s5.podIp <;> exact ⟨rfl, rfl, rfl, rfl⟩
  · exact ⟨rfl, rfl, rfl, rfl⟩

theorem amfBlockedBranch_status (avail : Nat → Bool) (s1 : AmfState) :
    (amfBlockedBranch avail s1).state.status = .blocked "need nrf and db relations" := by
  simp only [amfBlockedBranch]
  split_ifs <;> rfl

theorem amfBlockedBranch_noRaise (avail : Nat → Bool) (s1 : AmfState) (e : Exc) :
    (amfBlockedBranch avail s1).outcome ≠ .raised e := by
  simp only [amfBlockedBranch]
  split_ifs <;> simp

theorem amfStartBranch_noRaise (avail : Nat → Bool) (s1 : AmfState) (e : Exc) :
    (amfStartBranch avail s1).outcome ≠ .raised e := by
  simp only [amfStartBranch]
  split_ifs <;> simp [amfPublishStep_outcome]

theorem amfStartBranch_deferred_status (avail : Nat → Bool) (s1 : AmfState) :
    (amfStartBranch avail s1).outcome = .deferred →
      (amfStartBranch avail s1).state.status = s1.status := by
  simp only [amfStartBranch]
  split_ifs <;> intro h <;>
    first
      | rfl
      | simp at h
      | (rw [amfPublishStep_outcome] at h; simp at h)

theorem availAlways_eq (n : Nat) : availAlways n = true := rfl

theorem amfPublishStep_plan (s5 : AmfState) (tr : List Action) :
    (amfPublishStep s5 tr).state.plan = s5.plan := (amfPublishStep_post s5 tr).2.2.1

theorem amfPublishStep_running (s5 : AmfState) (tr : List Action) :
    (amfPublishStep s5 tr).state.running = s5.running := (amfPublishStep_post s5 tr).2.2.2

theorem amfBlockedBranch_plan (avail : Nat → Bool) (s1 : AmfState) :
    (amfBlockedBranch avail s1).state.plan = s1.plan := by
  simp only [amfBlockedBranch]
  split_ifs <;> rfl

theorem amfStartBranch_plan (avail : Nat → Bool) (s1 : AmfState) :
    (amfStartBranch avail s1).state.plan = s1.plan := by
  simp only [amfStartBranch]
  split_ifs <;> simp [amfPublishStep_plan]

/-- With the runtime reachable, the blocked branch always leaves the service
not running. -/
theorem amfBlockedBranch_stops (s1 : AmfState) :
    amfRunning (amfBlockedBranch availAlways s1).state = false := by
  simp only [amfBlockedBranch, availAlways_eq, Bool.not_true]
  rw [if_neg (by simp)]
  by_cases h : amfRunning { s1 with status := Status.blocked "need nrf and db relations" } = true
  · rw [if_pos h, if_neg (by simp)]
    simp [amfRunning, contains_filter_ne]
  · rw [if_neg h]
    exact Bool.eq_false_iff.mpr h

/-- With the runtime reachable and the service already running, the start
branch is a no-op. -/
theorem amfStartBranch_already (s1 : AmfState) (h : amfRunning s1 = true) :
    amfStartBranch availAlways s1 = ⟨s1, .ok, []⟩ := by
  simp only [amfStartBranch, availAlways_eq, Bool.not_true]
  rw [if_neg (by simp), if_pos h]

/-- With the runtime reachable and the service not running, the start branch
starts it. -/
theorem amfStartBranch_starts (s1 : AmfState) (h : amfRunning s1 = false) :
    (amfStartBranch availAlways s1).state.running = "oai_amf" :: s1.running := by
  simp only [amfStartBranch, availAlways_eq, Bool.not_true]
  rw [if_neg (by simp), if_neg (by simp [h]), if_neg (by simp), if_neg (by simp)]
  split_ifs <;> simp [amfPublishStep_running]

/-! Behavioural lemmas for the SMF branches (and the SPGWU twins). -/

theorem smfAfterStart_plan (avail : Nat → Bool) (s2 : SmfState) (tr1 : List Action) :
    (smfAfterStart avail s2 tr1).state.plan = s2.plan := by
  simp only [smfAfterStart]
  split_ifs <;> rfl

theorem smfAfterStart_running (avail : Nat → Bool) (s2 : SmfState) (tr1 : List Action) :
    (smfAfterStart avail s2 tr1).state.running = s2.running := by
  simp only [smfAfterStart]
  split_ifs <;> rfl

theorem smfAfterStart_raised_status (avail : Nat → Bool) (s2 : SmfState)
    (tr1 : List Action) (e : Exc) :
    (smfAfterStart avail s2 tr1).outcome = .raised e →
      (smfAfterStart avail s2 tr1).state.status = s2.status := by
  simp only [smfAfterStart]
  split_ifs <;> intro h <;> first | rfl | simp at h

theorem smfReadyBranch_raised_status (avail : Nat → Bool) (s1 : SmfState) (e : Exc) :
    (smfReadyBranch avail s1).outcome = .raised e →
      (smfReadyBranch avail s1).state.status = s1.status := by
  simp only [smfReadyBranch]
  split_ifs <;> intro h <;>
    first
      | rfl
      | simp at h
      | exact smfAfterStart_raised_status _ _ _ e h

theorem smfStopBranch_raised_status (avail : Nat → Bool) (s1 : SmfState) (e : Exc) :
    (smfStopBranch avail s1).outcome = .raised e →
      (smfStopBranch avail s1).state.status = s1.status := by
  simp only [smfStopBranch]
  split_ifs <;> intro h <;> first | rfl | simp at h

theorem smfUpdate_raised_status (avail : Nat → Bool) (s : SmfState) (e : Exc) :
    (smfUpdate avail s).outcome = .raised e →
      (smfUpdate avail s).state.status = s.status := by
  simp only [smfUpdate]
  split_ifs <;> intro h
  · exact smfReadyBranch_raised_status _ _ e h
  · exact smfStopBranch_raised_status _ _ e h

/-- With the runtime reachable, the SMF stop branch always sets the blocked
status and leaves the service not running. -/
theorem smfStopBranch_blocks (s1 : SmfState) :
    (smfStopBranch availAlways s1).state.status = .blocked "need nrf and amf relations" ∧
    smfRunning (smfStopBranch availAlways s1).state = false := by
  simp only [smfStopBranch, availAlways_eq, Bool.not_true]
  rw [if_neg (by simp)]
  by_cases hp : s1.plan.contains "oai_smf" = true
  · rw [if_pos hp, if_neg (by simp)]
    by_cases hr : s1.running.contains "oai_smf" = true
    · rw [if_pos hr, if_neg (by simp)]
      exact ⟨rfl, by simp [smfRunning, contains_filter_ne]⟩
    · rw [if_neg hr]
      refine ⟨rfl, ?_⟩
      have hr2 : "oai_smf" ∉ s1.running := fun hm => hr ((containsIffMem _ _).mpr hm)
      simp [smfRunning, hr2]
  · rw [if_neg hp]
    refine ⟨rfl, ?_⟩
    have hp2 : "oai_smf" ∉ s1.plan := fun hm => hp ((containsIffMem _ _).mpr hm)
    simp [smfRunning, hp2]

/-- With the runtime reachable, the SPGWU stop branch always sets the
blocked status and leaves the service not running. -/
theorem spgwuStopBranch_blocks (s1 : SpgwuState) :
    (spgwuStopBranch availAlways s1).state.status = .blocked "need nrf and smf relations" ∧
    spgwuRunning (spgwuStopBranch availAlways s1).state = false := by
  simp only [spgwuStopBranch, availAlways_eq, Bool.not_true]
  rw [if_neg (by simp)]
  by_cases hp : s1.plan.contains "oai_spgwu_tiny" = true
  · rw [if_pos hp, if_neg (by simp)]
    by_cases hr : s1.running.contains "oai_spgwu_tiny" = true
    · rw [if_pos hr, if_neg (by simp)]
      exact ⟨rfl, by simp [spgwuRunning, contains_filter_ne]⟩
    · rw [if_neg hr]
      refine ⟨rfl, ?_⟩
      have hr2 : "oai_spgwu_tiny" ∉ s1.running := fun hm => hr ((containsIffMem _ _).mpr hm)
      simp [spgwuRunning, hr2]
  · rw [if_neg hp]
    refine ⟨rfl, ?_⟩
    have hp2 : "oai_spgwu_tiny" ∉ s1.plan := fun hm => hp ((containsIffMem _ _).mpr hm)
    simp [spgwuRunning, hp2]

/-! Lemmas for running the passes twice (idempotence). -/

theorem ifBangTrue {α : Sort _} {b : Bool} (h : b = true) (a c : α) :
    (if (!b) = true then a else c) = c := by
  subst h
  rfl

theorem ifBangFalse {α : Sort _} {b : Bool} (h : b = false) (a c : α) :
    (if (!b) = true then a else c) = a := by
  subst h
  rfl

theorem ifCondTrue {α : Sort _} {b : Bool} (h : b = true) (a c : α) :
    (if b = true then a else c) = a := by
  subst h
  rfl

theorem ifCondFalse {α : Sort _} {b : Bool} (h : b = false) (a c : α) :
    (if b = true then a else c) = c := by
  subst h
  rfl

/-- The blocked branch never issues a start or publish action. -/
theorem amfBlockedBranch_trace_clean (avail : Nat → Bool) (s1 : AmfState) :
    ((amfBlockedBranch avail s1).trace.filter
      (fun a => isStartAction a || isPublishAction a)) = [] := by
  simp only [amfBlockedBranch]
  split_ifs <;> rfl

/-- The SMF stop branch never issues a start or publish action. -/
theorem smfStopBranch_trace_clean (avail : Nat → Bool) (s1 : SmfState) :
    ((smfStopBranch avail s1).trace.filter
      (fun a => isStartAction a || isPublishAction a)) = [] := by
  simp only [smfStopBranch]
  split_ifs <;> rfl

theorem smfAfterStart_status (s2 : SmfState) (tr1 : List Action) :
    (smfAfterStart availAlways s2 tr1).state.status = .active := by
  simp only [smfAfterStart, availAlways_eq, Bool.not_true]
  split_ifs <;> first | rfl | contradiction

/-- SMF ready branch when the service definition is absent: `ModelError`. -/
theorem smfReadyBranch_noPlan (s1 : SmfState) (h : s1.plan.contains "oai_smf" = false) :
    smfReadyBranch availAlways s1 = ⟨s1, .raised .modelError, []⟩ := by
  simp only [smfReadyBranch, availAlways_eq, Bool.not_true]
  rw [if_neg (by decide), if_neg (by decide), if_neg (by decide),
    ifBangFalse h, ifCondFalse h]

/-- SMF ready branch when the service is already running: configure only. -/
theorem smfReadyBranch_already (s1 : SmfState) (hp : s1.plan.contains "oai_smf" = true)
    (hr : s1.running.contains "oai_smf" = true) :
    smfReadyBranch availAlways s1 =
      ⟨s1, .ok, [.configure (smfConfigureEnv s1.stored)]⟩ := by
  simp only [smfReadyBranch, availAlways_eq, Bool.not_true]
  rw [if_neg (by decide), if_neg (by decide), if_neg (by decide),
    ifBangTrue hp, ifBangTrue hr, ifCondTrue hp]

/-- SMF ready branch when the service exists and is not running: start. -/
theorem smfReadyBranch_starts (s1 : SmfState) (hp : s1.plan.contains "oai_smf" = true)
    (hr : s1.running.contains "oai_smf" = false) :
    smfReadyBranch availAlways s1 =
      smfAfterStart availAlways { s1 with running := "oai_smf" :: s1.running }
        [.configure (smfConfigureEnv s1.stored)] := by
  simp only [smfReadyBranch, availAlways_eq, Bool.not_true]
  rw [if_neg (by decide), if_neg (by decide), if_neg (by decide),
    ifBangTrue hp, ifBangFalse hr, if_neg (by decide), ifCondTrue hp]

/-- NRF pass when the service definition is absent: nothing happens. -/
theorem nrfUpdate_noPlan (s : NrfState) (h : s.plan.contains "oai_nrf" = false) :
    nrfUpdate availAlways s = ⟨s, .ok, []⟩ := by
  simp only [nrfUpdate, availAlways_eq, Bool.not_true]
  rw [if_neg (by decide), ifCondFalse h]

/-- NRF pass when the service is already running: `_start_service` returns
`None` and the pass does nothing. -/
theorem nrfUpdate_already (s : NrfState) (hp : s.plan.contains "oai_nrf" = true)
    (hr : s.running.contains "oai_nrf" = true) :
    nrfUpdate availAlways s = ⟨s, .ok, []⟩ := by
  simp only [nrfUpdate, availAlways_eq, Bool.not_true]
  rw [if_neg (by decide), ifCondTrue hp, if_neg (by decide), ifBangTrue hr]

/-- NRF pass when the service exists and is not running: the post state has
the service running on an unchanged plan. -/
theorem nrfUpdate_starts (s : NrfState) (hp : s.plan.contains "oai_nrf" = true)
    (hr : s.running.contains "oai_nrf" = false) :
    (nrfUpdate availAlways s).state.plan = s.plan ∧
    (nrfUpdate availAlways s).state.running = "oai_nrf" :: s.running := by
  simp only [nrfUpdate, availAlways_eq, Bool.not_true]
  rw [if_neg (by decide), ifCondTrue hp, if_neg (by decide), ifBangFalse hr,
    if_neg (by decide)]
  split_ifs <;> exact ⟨rfl, rfl⟩

/-! Whole-pass case equations with the runtime reachable. -/

theorem amfUpdate_noPlan (s : AmfState) (h : s.plan.contains "oai_amf" = false) :
    amfUpdate availAlways s = ⟨s, .ok, []⟩ := by
  rw [amfUpdate_eq, ifBangTrue (availAlways_eq 0), ifBangFalse h]

theorem amfUpdate_blocked (s : AmfState) (hp : s.plan.contains "oai_amf" = true)
    (hd : amfDepsReady s = false) :
    amfUpdate availAlways s =
      amfBlockedBranch availAlways { s with stored := amfStoredOf s.nrfRel s.dbRel } := by
  rw [amfUpdate_eq, ifBangTrue (availAlways_eq 0), ifBangTrue hp, ifCondFalse hd]

theorem amfUpdate_ready_already (s : AmfState) (hp : s.plan.contains "oai_amf" = true)
    (hd : amfDepsReady s = true) (hr : amfRunning s = true) :
    amfUpdate availAlways s =
      ⟨{ s with stored := amfStoredOf s.nrfRel s.dbRel }, .ok, []⟩ := by
  rw [amfUpdate_eq, ifBangTrue (availAlways_eq 0), ifBangTrue hp, ifCondTrue hd]
  exact amfStartBranch_already _ hr

theorem amfUpdate_ready_starts (s : AmfState) (hp : s.plan.contains "oai_amf" = true)
    (hd : amfDepsReady s = true) (hr : amfRunning s = false) :
    (amfUpdate availAlways s).state.plan = s.plan ∧
    (amfUpdate availAlways s).state.running = "oai_amf" :: s.running := by
  rw [amfUpdate_eq, ifBangTrue (availAlways_eq 0), ifBangTrue hp, ifCondTrue hd]
  refine ⟨(amfStartBranch_plan _ _).trans rfl, ?_⟩
  exact (amfStartBranch_starts { s with stored := amfStoredOf s.nrfRel s.dbRel } hr).trans rfl

theorem smfReadyBranch_plan (avail : Nat → Bool) (s1 : SmfState) :
    (smfReadyBranch avail s1).state.plan = s1.plan := by
  simp only [smfReadyBranch]
  split_ifs <;> first | rfl | exact smfAfterStart_plan _ _ _

theorem smfStopBranch_plan (avail : Nat → Bool) (s1 : SmfState) :
    (smfStopBranch avail s1).state.plan = s1.plan := by
  simp only [smfStopBranch]
  split_ifs <;> rfl

theorem amfUpdate_plan (avail : Nat → Bool) (s : AmfState) :
    (amfUpdate avail s).state.plan = s.plan := by
  rw [amfUpdate_eq]
  split_ifs
  · rfl
  · rfl
  · exact (amfStartBranch_plan _ _).trans rfl
  · exact (amfBlockedBranch_plan _ _).trans rfl

theorem smfUpdate_plan (avail : Nat → Bool) (s : SmfState) :
    (smfUpdate avail s).state.plan = s.plan := by
  rw [smfUpdate_eq]
  split_ifs
  · exact (smfReadyBranch_plan _ _).trans rfl
  · exact (smfStopBranch_plan _ _).trans rfl

theorem smfUpdate_blocked (s : SmfState) (hd : smfDepsReady s = false) :
    smfUpdate availAlways s =
      smfStopBranch availAlways { s with stored := smfStoredOf s.amfRel s.nrfRel } := by
  rw [smfUpdate_eq, ifCondFalse hd]

theorem smfUpdate_ready_noPlan (s : SmfState) (hd : smfDepsReady s = true)
    (hp : s.plan.contains "oai_smf" = false) :
    smfUpdate availAlways s =
      ⟨{ s with stored := smfStoredOf s.amfRel s.nrfRel }, .raised .modelError, []⟩ := by
  rw [smfUpdate_eq, ifCondTrue hd]
  exact smfReadyBranch_noPlan { s with stored := smfStoredOf s.amfRel s.nrfRel } hp

theorem smfUpdate_ready_already (s : SmfState) (hd : smfDepsReady s = true)
    (hp : s.plan.contains "oai_smf" = true) (hr : s.running.contains "oai_smf" = true) :
    (smfUpdate availAlways s).state = { s with stored := smfStoredOf s.amfRel s.nrfRel } ∧
    ((smfUpdate availAlways s).trace.filter
      (fun a => isStartAction a || isPublishAction a)) = [] := by
  rw [smfUpdate_eq, ifCondTrue hd,
    smfReadyBranch_already { s with stored := smfStoredOf s.amfRel s.nrfRel } hp hr]
  exact ⟨rfl, rfl⟩

theorem smfUpdate_ready_starts (s : SmfState) (hd : smfDepsReady s = true)
    (hp : s.plan.contains "oai_smf" = true) (hr : s.running.contains "oai_smf" = false) :
    (smfUpdate availAlways s).state.plan = s.plan ∧
    (smfUpdate availAlways s).state.running = "oai_smf" :: s.running ∧
    (smfUpdate availAlways s).state.status = .active := by
  rw [smfUpdate_eq, ifCondTrue hd,
    smfReadyBranch_starts { s with stored := smfStoredOf s.amfRel s.nrfRel } hp hr]
  exact ⟨(smfAfterStart_plan _ _ _).trans rfl, (smfAfterStart_running _ _ _).trans rfl,
    smfAfterStart_status _ _⟩

/-! Second-pass lemmas: the passes are idempotent with the runtime
reachable. -/

theorem amfSecondPass (s : AmfState) :
    (amfUpdate availAlways (amfUpdate availAlways s).state).state.status =
      (amfUpdate availAlways s).state.status ∧
    ((amfUpdate availAlways (amfUpdate availAlways s).state).trace.filter
      (fun a => isStartAction a || isPublishAction a)) = [] := by
  by_cases hp : s.plan.contains "oai_amf" = true
  · have e1 : (amfUpdate availAlways s).state.nrfRel = s.nrfRel :=
      (amfUpdate_rels availAlways s).1
    have e2 : (amfUpdate availAlways s).state.dbRel = s.dbRel :=
      (amfUpdate_rels availAlways s).2
    have e3 : (amfUpdate availAlways s).state.plan = s.plan :=
      amfUpdate_plan availAlways s
    have hp2 : (amfUpdate availAlways s).state.plan.contains "oai_amf" = true := by
      rw [e3]; exact hp
    by_cases hd : amfDepsReady s = true
    · have hd2 : amfDepsReady (amfUpdate availAlways s).state = true := by
        simp only [amfDepsReady]
        rw [e1, e2]
        exact hd
      by_cases hr : amfRunning s = true
      · rw [amfUpdate_ready_already s hp hd hr] at *
        rw [amfUpdate_ready_already _ hp2 hd2 (show amfRunning _ = true from hr)]
        exact ⟨rfl, rfl⟩
      · have hrf : amfRunning s = false := Bool.eq_false_iff.mpr hr
        have hstart := amfUpdate_ready_starts s hp hd hrf
        have hr2 : amfRunning (amfUpdate availAlways s).state = true := by
          simp only [amfRunning]
          rw [hstart.1, hstart.2, hp]
          simp
        rw [amfUpdate_ready_already _ hp2 hd2 hr2]
        exact ⟨rfl, rfl⟩
    · have hdf : amfDepsReady s = false := Bool.eq_false_iff.mpr hd
      have hd2 : amfDepsReady (amfUpdate availAlways s).state = false := by
        simp only [amfDepsReady]
        rw [e1, e2]
        exact hdf
      rw [amfUpdate_blocked _ hp2 hd2]
      constructor
      · rw [amfBlockedBranch_status, amfUpdate_blocked s hp hdf, amfBlockedBranch_status]
      · exact amfBlockedBranch_trace_clean _ _
  · have hpf : s.plan.contains "oai_amf" = false := Bool.eq_false_iff.mpr hp
    rw [amfUpdate_noPlan s hpf]
    rw [show ((⟨s, .ok, []⟩ : AmfResult).state) = s from rfl, amfUpdate_noPlan s hpf]
    exact ⟨rfl, rfl⟩

theorem smfSecondPass (s : SmfState) :
    (smfUpdate availAlways (smfUpdate availAlways s).state).state.status =
      (smfUpdate availAlways s).state.status ∧
    ((smfUpdate availAlways (smfUpdate availAlways s).state).trace.filter
      (fun a => isStartAction a || isPublishAction a)) = [] := by
  have e1 : (smfUpdate availAlways s).state.amfRel = s.amfRel :=
    (smfUpdate_rels availAlways s).1
  have e2 : (smfUpdate availAlways s).state.nrfRel = s.nrfRel :=
    (smfUpdate_rels availAlways s).2
  have e3 : (smfUpdate availAlways s).state.plan = s.plan :=
    smfUpdate_plan availAlways s
  by_cases hd : smfDepsReady s = true
  · have hd2 : smfDepsReady (smfUpdate availAlways s).state = true := by
      simp only [smfDepsReady]
      rw [e1, e2]
      exact hd
    by_cases hpl : s.plan.contains "oai_smf" = true
    · have hp2 : (smfUpdate availAlways s).state.plan.contains "oai_smf" = true := by
        rw [e3]; exact hpl
      by_cases hr : s.running.contains "oai_smf" = true
      · have h1 := smfUpdate_ready_already s hd hpl hr
        have hr2 : (smfUpdate availAlways s).state.running.contains "oai_smf" = true := by
          rw [h1.1]
          exact hr
        have h2 := smfUpdate_ready_already (smfUpdate availAlways s).state hd2 hp2 hr2
        refine ⟨?_, h2.2⟩
        rw [h2.1]
      · have hrf : s.running.contains "oai_smf" = false := Bool.eq_false_iff.mpr hr
        have h1 := smfUpdate_ready_starts s hd hpl hrf
        have hr2 : (smfUpdate availAlways s).state.running.contains "oai_smf" = true := by
          rw [h1.2.1]
          simp
        have h2 := smfUpdate_ready_already (smfUpdate availAlways s).state hd2 hp2 hr2
        refine ⟨?_, h2.2⟩
        rw [h2.1]
    · have hpf : s.plan.contains "oai_smf" = false := Bool.eq_false_iff.mpr hpl
      have hp2 : (smfUpdate availAlways s).state.plan.contains "oai_smf" = false := by
        rw [e3]; exact hpf
      have h1 := smfUpdate_ready_noPlan s hd hpf
      rw [smfUpdate_ready_noPlan _ hd2 hp2, h1]
      exact ⟨rfl, rfl⟩
  · have hdf : smfDepsReady s = false := Bool.eq_false_iff.mpr hd
    have hd2 : smfDepsReady (smfUpdate availAlways s).state = false := by
      simp only [smfDepsReady]
      rw [e1, e2]
      exact hdf
    rw [smfUpdate_blocked _ hd2]
    constructor
    · rw [(smfStopBranch_blocks _).1, smfUpdate_blocked s hdf, (smfStopBranch_blocks _).1]
    · exact smfStopBranch_trace_clean _ _

theorem nrfSecondPass (s : NrfState) :
    (nrfUpdate availAlways (nrfUpdate availAlways s).state).state.status =
      (nrfUpdate availAlways s).state.status ∧
    ((nrfUpdate availAlways (nrfUpdate availAlways s).state).trace.filter
      (fun a => isStartAction a || isPublishAction a)) = [] := by
  by_cases hp : s.plan.contains "oai_nrf" = true
  · by_cases hr : s.running.contains "oai_nrf" = true
    · rw [nrfUpdate_already s hp hr]
      rw [show ((⟨s, .ok, []⟩ : NrfResult).state) = s from rfl, nrfUpdate_already s hp hr]
      exact ⟨rfl, rfl⟩
    · have hrf : s.running.contains "oai_nrf" = false := Bool.eq_false_iff.mpr hr
      have h1 := nrfUpdate_starts s hp hrf
      have hp2 : (nrfUpdate availAlways s).state.plan.contains "oai_nrf" = true := by
        rw [h1.1]; exact hp
      have hr2 : (nrfUpdate availAlways s).state.running.contains "oai_nrf" = true := by
        rw [h1.2]
        simp
      rw [nrfUpdate_already _ hp2 hr2]
      exact ⟨rfl, rfl⟩
  · have hpf : s.plan.contains "oai_nrf" = false := Bool.eq_false_iff.mpr hp
    rw [nrfUpdate_noPlan s hpf]
    rw [show ((⟨s, .ok, []⟩ : NrfResult).state) = s from rfl, nrfUpdate_noPlan s hpf]
    exact ⟨rfl, rfl⟩

/-! ## Lemmas about the `search_logs` scan -/

theorem allCongr (l : List String) (f g : String → Bool) (h : ∀ x ∈ l, f x = g x) :
    l.all f = l.all g := by
  induction l with
  | nil => rfl
  | cons hd tl ih =>
    simp only [List.all_cons]
    rw [h hd (by simp), ih (fun x hx => h x (by simp [hx]))]

theorem eqOfLenLeOne {α : Type} {l : List α} (h : l.length ≤ 1) {a b : α}
    (ha : a ∈ l) (hb : b ∈ l) : a = b := by
  match l with
  | [] => cases ha
  | [x] =>
    simp only [List.mem_singleton] at ha hb
    rw [ha, hb]
  | x :: y :: rest => simp at h

/-- Reduction of `scanLine` when the token search fails. -/
theorem scanLine_eq_of_find_none (tokens found : List String) (line : String)
    (hf : tokens.find? (fun tk => strHas line tk) = none) :
    scanLine tokens found line = found := by
  unfold scanLine
  rw [hf]

/-- Reduction of `scanLine` when the token search succeeds. -/
theorem scanLine_eq_of_find_some (tokens found : List String) (line : String)
    {u : String} (hf : tokens.find? (fun tk => strHas line tk) = some u) :
    scanLine tokens found line =
      if found.contains u then found else found ++ [u] := by
  unfold scanLine
  rw [hf]

/-- The scan only ever adds to the found set. -/
theorem mem_scanLine_of_mem (tokens found : List String) (line : String) {a : String}
    (h : a ∈ found) : a ∈ scanLine tokens found line := by
  cases hf : tokens.find? (fun tk => strHas line tk) with
  | none => rw [scanLine_eq_of_find_none tokens found line hf]; exact h
  | some u =>
    rw [scanLine_eq_of_find_some tokens found line hf]
    by_cases hc : found.contains u = true
    · rw [if_pos hc]; exact h
    · rw [if_neg hc]
      exact List.mem_append.mpr (Or.inl h)

/-- Per-line effect of the scan when the line contains at most one token of
the set: a token is in the new found set iff it was already found or it
occurs in the line. -/
theorem scanLine_mem_iff (tokens found : List String) (line : String) {t : String}
    (ht : t ∈ tokens)
    (h1 : (tokens.filter (fun tk => strHas line tk)).length ≤ 1) :
    (t ∈ scanLine tokens found line ↔ t ∈ found ∨ strHas line t = true) := by
  cases hf : tokens.find? (fun tk => strHas line tk) with
  | none =>
    have hno := List.find?_eq_none.mp hf
    have hts : ¬ strHas line t = true := hno t ht
    rw [scanLine_eq_of_find_none tokens found line hf]
    simp [hts]
  | some u =>
    have hpu : strHas line u = true := List.find?_some hf
    have hu : u ∈ tokens := List.mem_of_find?_eq_some hf
    have huf : u ∈ tokens.filter (fun tk => strHas line tk) :=
      List.mem_filter.mpr ⟨hu, hpu⟩
    rw [scanLine_eq_of_find_some tokens found line hf]
    constructor
    · intro hmem
      by_cases hc : found.contains u = true
      · rw [if_pos hc] at hmem
        exact Or.inl hmem
      · rw [if_neg hc] at hmem
        rcases List.mem_append.mp hmem with h' | h'
        · exact Or.inl h'
        · right
          rw [List.mem_singleton.mp h']
          exact hpu
    · intro hmem
      rcases hmem with h' | h'
      · by_cases hc : found.contains u = true
        · rw [if_pos hc]; exact h'
        · rw [if_neg hc]
          exact List.mem_append.mpr (Or.inl h')
      · have htf : t ∈ tokens.filter (fun tk => strHas line tk) :=
          List.mem_filter.mpr ⟨ht, h'⟩
        have htu : t = u := eqOfLenLeOne h1 htf huf
        by_cases hc : found.contains u = true
        · rw [if_pos hc, htu]
          exact (containsIffMem found u).mp hc
        · rw [if_neg hc]
          apply List.mem_append.mpr
          right
          simp [htu]

theorem mem_scanFold_of_mem (tokens : List String) (lines : List String)
    (found : List String) {a : String} (h : a ∈ found) :
    a ∈ lines.foldl (scanLine tokens) found := by
  induction lines generalizing found with
  | nil => exact h
  | cons line rest ih =>
    exact ih _ (mem_scanLine_of_mem tokens found line h)

/-- Characterisation of the found set after the whole scan, when every line
contains at most one token of the set. -/
theorem scanFold_mem_iff (tokens lines : List String) (found : List String) {t : String}
    (ht : t ∈ tokens)
    (h1 : ∀ l ∈ lines, (tokens.filter (fun tk => strHas l tk)).length ≤ 1) :
    (t ∈ lines.foldl (scanLine tokens) found ↔
      t ∈ found ∨ lines.any (fun l => strHas l t) = true) := by
  induction lines generalizing found with
  | nil => simp
  | cons line rest ih =>
    simp only [List.foldl_cons, List.any_cons, Bool.or_eq_true]
    rw [ih _ (fun l hl => h1 l (List.mem_cons_of_mem line hl)),
      scanLine_mem_iff tokens found line ht (h1 line (List.mem_cons_self line rest))]
    tauto

/-- The value of the scan loop in terms of the final found set: the loop
answers `true` (at the line where the last token was credited) exactly when
the full scan credits every token. -/
theorem searchLoopPartial_getD (tokens : List String) (lines : List String)
    (found : List String) (hnc : tokens.all (fun t => found.contains t) = false) :
    (searchLoopPartial tokens lines found).getD false =
      tokens.all (fun t => (lines.foldl (scanLine tokens) found).contains t) := by
  induction lines generalizing found with
  | nil =>
    simp only [searchLoopPartial, Option.getD_none, List.foldl_nil]
    exact hnc.symm
  | cons line rest ih =>
    simp only [searchLoopPartial, List.foldl_cons]
    by_cases hc : tokens.all (fun t => (scanLine tokens found line).contains t) = true
    · rw [if_pos hc]
      simp only [Option.getD_some]
      symm
      rw [List.all_eq_true] at hc ⊢
      intro t htk
      have h' := hc t htk
      rw [containsIffMem] at h' ⊢
      exact mem_scanFold_of_mem tokens rest _ h'
    · have hcf : tokens.all (fun t => (scanLine tokens found line).contains t) = false :=
        Bool.eq_false_iff.mpr hc
      rw [if_neg hc]
      exact ih _ hcf

/-- In follow mode the loop can only ever come back with success: `False` is
produced solely by reaching the end of the stream. -/
theorem searchLoopPartial_ne_some_false (tokens lines found : List String) :
    searchLoopPartial tokens lines found ≠ some false := by
  induction lines generalizing found with
  | nil => simp [searchLoopPartial]
  | cons line rest ih =>
    simp only [searchLoopPartial]
    by_cases hc : tokens.all (fun t => (scanLine tokens found line).contains t) = true
    · rw [if_pos hc]
      simp
    · rw [if_neg hc]
      exact ih _

/-! ## Claim C4 -/

/-- Auxiliary step for the non-returning stream: a line containing no token
leaves the scan waiting. -/
theorem searchLoopPartial_noise (n : Nat) :
    searchLoopPartial ["amf_n2 started"]
      (List.replicate n "irrelevant output line") [] = none := by
  induction n with
  | zero => rfl
  | succ m ih =>
    have h1 : scanLine ["amf_n2 started"] [] "irrelevant output line" = [] := by decide
    have h2 : (["amf_n2 started"].all fun t => List.contains ([] : List String) t)
        = false := by decide
    rw [List.replicate_succ]
    simp only [searchLoopPartial, h1, h2]
    rw [if_neg (by simp)]
    exact ih

/-- Claim C4 counterexample: `search_logs` with `wait=true` does not block
for a bounded, caller-specified duration — it takes no duration at all, and
on a followed stream that keeps producing lines without the signal token the
scan has not returned after any finite number of lines: it blocks
indefinitely instead of returning `false` when a wait is exhausted. -/
theorem search_logs_wait_never_returns_counterexample :
    scanNeverReturns ["amf_n2 started"] (fun _ => "irrelevant output line") := by
  intro n
  have hmap : (List.range n).map (fun _ => "irrelevant output line") =
      List.replicate n "irrelevant output line" := by
    simp [List.map_const]
  rw [hmap]
  exact searchLoopPartial_noise n

/-- Claim C4 (amended): `search_logs` has no timeout argument; with
`wait=true` it returns `true` as soon as every token has been observed, and
it returns `false` only when the followed stream itself ends — the partial
scan never yields `false` while the stream is live, and a `false` result is
equivalent to the scan still waiting at the point the stream ended. -/
theorem search_logs_wait_unbounded_amended (tokens lines found : List String) :
    searchLoopPartial tokens lines found ≠ some false ∧
    (searchLogsRun tokens lines = false ↔ searchLoopPartial tokens lines [] = none) := by
  refine ⟨searchLoopPartial_ne_some_false tokens lines found, ?_⟩
  cases h : searchLoopPartial tokens lines [] with
  | none => simp [searchLogsRun, h]
  | some b =>
    cases b with
    | false => exact absurd h (searchLoopPartial_ne_some_false tokens lines [])
    | true => simp [searchLogsRun, h]

/-- Witness for the amended C4 theorem at a concrete stream. -/
theorem search_logs_wait_unbounded_amended_witness :
    searchLoopPartial ["ready"] ["noise"] [] = none :=
  (search_logs_wait_unbounded_amended ["ready"] ["noise"] []).2.mp (by decide)

/-! ## Claim C5 -/

/-- Claim C5 counterexample: with token set `{a, b}` and the single scanned
line `"ab"`, both tokens occur in the line, yet `search_logs` returns
`false` (the inner loop `break`s after crediting the first matching token,
so a line containing several distinct tokens does not credit all of them).
Both iteration orders of the two-element set are covered. -/
theorem search_logs_multi_token_line_counterexample :
    searchLogsRun ["a", "b"] ["ab"] = false ∧
    searchLogsRun ["b", "a"] ["ab"] = false ∧
    strHas "ab" "a" = true ∧ strHas "ab" "b" = true := by decide

/-- Claim C5 (amended): tokens are matched independently, in any order and
interleaved with unrelated lines, but each scanned line credits at most one
token — the first token in the set's iteration order occurring in the line,
with already-credited tokens re-matched rather than skipped.  Consequently,
when no scanned line contains two distinct tokens of the set, the logs-mode
scan returns `true` exactly when every token occurs in at least one scanned
line. -/
theorem search_logs_token_matching_amended (tokens lines : List String)
    (hne : tokens ≠ [])
    (h1 : ∀ l ∈ lines, (tokens.filter (fun tk => strHas l tk)).length ≤ 1) :
    searchLogsRun tokens lines =
      tokens.all (fun t => lines.any (fun l => strHas l t)) := by
  have hnc : tokens.all (fun t => ([] : List String).contains t) = false := by
    cases tokens with
    | nil => exact absurd rfl hne
    | cons a as => simp [List.all_cons, List.contains]
  rw [searchLogsRun, searchLoopPartial_getD tokens lines [] hnc]
  apply allCongr
  intro t htk
  rw [Bool.eq_iff_iff, containsIffMem,
    scanFold_mem_iff tokens lines [] htk h1]
  simp

/-- Witness for the amended C5 theorem: tokens arriving out of order and
interleaved, one per line. -/
theorem search_logs_token_matching_amended_witness :
    searchLogsRun ["a", "b"] ["x b x", "noise", "y a"] = true := by
  rw [search_logs_token_matching_amended ["a", "b"] ["x b x", "noise", "y a"]
    (by decide) ?_]
  · decide
  · intro l hl
    simp only [List.mem_cons, List.not_mem_nil, or_false] at hl
    rcases hl with rfl | rfl | rfl <;> decide

/-! ## Claim C10 -/

/-- Claim C10: exactly one of the two token-set arguments must be non-empty;
`search_logs` raises (before scanning any output — the erroneous result does
not depend on the lines) iff both are given or both are empty. -/
theorem search_logs_mode_guard (logs subs lines : List String) :
    (exceptOk (search_logs logs subs lines) = true ↔ (logs = [] ↔ subs ≠ [])) ∧
    (exceptOk (search_logs logs subs lines) = false →
      search_logs logs subs lines = search_logs logs subs []) := by
  cases logs <;> cases subs <;> simp [search_logs, exceptOk]

/-- Witness for the C10 theorem: both sets given means the error is raised,
independently of the output lines. -/
theorem search_logs_mode_guard_witness :
    exceptOk (search_logs ["tok"] ["other"] ["line"]) = false ∧
    search_logs ["tok"] ["other"] ["line"] = search_logs ["tok"] ["other"] [] :=
  ⟨by decide, (search_logs_mode_guard ["tok"] ["other"] ["line"]).2 (by decide)⟩

/-! ## Claim C3 -/

/-- Claim C3: the resolver reports satisfied iff the relation channel exists
and every required key maps to a non-empty value in its remote application
databag (AMF's `nrf` dependency: `host`, `port`, `api-version`; the NR-UE's
`gnb` dependency checks only `host`); in particular an absent channel yields
unsatisfied, and so does a present channel with missing or empty required
keys, both through the same truthiness test of the loaded cache. -/
theorem resolver_satisfied_iff (rel : Option KVMap) (st : AmfStored) (stU : UeStored) :
    (amfIsNrfReady (amfLoadNrfData rel st) = true ↔
      ∃ d, rel = some d ∧ truthy (kvGet d "host") = true ∧
        truthy (kvGet d "port") = true ∧ truthy (kvGet d "api-version") = true) ∧
    amfIsNrfReady (amfLoadNrfData none st) = false ∧
    (ueIsGnbReady (ueLoadGnbData rel stU) = true ↔
      ∃ d, rel = some d ∧ truthy (kvGet d "host") = true) := by
  refine ⟨?_, ?_, ?_⟩
  · cases rel with
    | none => simp [amfLoadNrfData, amfIsNrfReady, truthy]
    | some d => simp [amfLoadNrfData, amfIsNrfReady, Bool.and_eq_true, and_assoc]
  · simp [amfLoadNrfData, amfIsNrfReady, truthy]
  · cases rel with
    | none => simp [ueLoadGnbData, ueIsGnbReady, truthy]
    | some d => simp [ueLoadGnbData, ueIsGnbReady]

/-- Witness for the C3 theorem: a fully populated databag satisfies the
resolver; the resolver also rejects the absent channel there. -/
theorem resolver_satisfied_iff_witness :
    amfIsNrfReady (amfLoadNrfData
      (some [("host", "10.0.0.5"), ("port", "80"), ("api-version", "v1")])
      amfStored0) = true ∧
    amfIsNrfReady (amfLoadNrfData none amfStored0) = false :=
  ⟨(resolver_satisfied_iff
      (some [("host", "10.0.0.5"), ("port", "80"), ("api-version", "v1")])
      amfStored0 ueStored0).1.mpr
      ⟨_, rfl, by decide, by decide, by decide⟩,
   (resolver_satisfied_iff none amfStored0 ueStored0).2.1⟩

/-! ## Claim C6 -/

/-- Claim C6 counterexample: resolving dependency readiness is not free of
side effects on the unit's stored state — with the `nrf` relation absent,
the resolution step of `_update_service` (`_load_nrf_data`; `_load_db_data`;
readiness check) overwrites a previously cached `nrf_host`. -/
theorem resolve_mutates_stored_counterexample :
    (amfResolveDeps none none
      ⟨some "10.0.0.5", some "80", some "v1", none, none, none, none, none⟩).2 ≠
      ⟨some "10.0.0.5", some "80", some "v1", none, none, none, none, none⟩ := by
  decide

/-- Claim C6 (amended): resolving dependency readiness reads the relation
store without changing it (a whole reconciliation pass leaves the consumed
`nrf`/`db` (AMF) and `amf`/`nrf` (SMF) channels untouched for every
availability pattern), and it is idempotent on the unit's stored state: it
overwrites the cached copies of the relation values, so a second resolve
against the same store is a no-op — but the cache mutation means the stored
state after a resolve need not equal the state before it. -/
theorem resolve_frame_amended (nrfRel dbRel amfRel : Option KVMap)
    (stA : AmfStored) (stS : SmfStored) (avail : Nat → Bool)
    (sA : AmfState) (sS : SmfState) :
    (amfResolveDeps nrfRel dbRel (amfResolveDeps nrfRel dbRel stA).2 =
      amfResolveDeps nrfRel dbRel stA) ∧
    (smfResolveDeps amfRel nrfRel (smfResolveDeps amfRel nrfRel stS).2 =
      smfResolveDeps amfRel nrfRel stS) ∧
    ((amfUpdate avail sA).state.nrfRel = sA.nrfRel ∧
      (amfUpdate avail sA).state.dbRel = sA.dbRel) ∧
    ((smfUpdate avail sS).state.amfRel = sS.amfRel ∧
      (smfUpdate avail sS).state.nrfRel = sS.nrfRel) := by
  refine ⟨?_, ?_, ?_, ?_⟩
  · simp [amfResolveDeps, amfLoad_const]
  · simp [smfResolveDeps, smfLoad_const]
  · exact amfUpdate_rels avail sA
  · exact smfUpdate_rels avail sS

/-! ## Claim C8 -/

/-- Claim C8: round-trip — after the AMF publishes its readiness data into
an `amf` channel, the SMF's resolver (`_load_amf_data` + `is_amf_ready`,
requiring exactly `host`, `port`, `api-version`) reports satisfied on that
channel's databag. -/
theorem publish_roundtrip (appName ip : String) (rels : List KVMap) (st : SmfStored)
    (hname : appName ≠ "") :
    ∀ d ∈ amfProvideServiceInfo appName (some ip) rels,
      smfIsAmfReady (smfLoadAmfData (some d) st) = true := by
  intro d hd
  simp only [amfProvideServiceInfo] at hd
  rcases List.mem_map.mp hd with ⟨r, _, rfl⟩
  have hhost : kvGet (amfPublishData appName ip r) "host" = some appName := by
    unfold amfPublishData
    rw [kvGet_kvSet_ne _ _ _ _ (by decide), kvGet_kvSet_ne _ _ _ _ (by decide),
      kvGet_kvSet_ne _ _ _ _ (by decide), kvGet_kvSet_self]
  have hport : kvGet (amfPublishData appName ip r) "port" = some "80" := by
    unfold amfPublishData
    rw [kvGet_kvSet_ne _ _ _ _ (by decide), kvGet_kvSet_self]
  have hapi : kvGet (amfPublishData appName ip r) "api-version" = some "v1" := by
    unfold amfPublishData
    rw [kvGet_kvSet_self]
  simp [smfLoadAmfData, smfIsAmfReady, hhost, hport, hapi, truthy, hname]

/-- Witness for the C8 theorem at a concrete publish. -/
theorem publish_roundtrip_witness :
    smfIsAmfReady (smfLoadAmfData
      (some (amfPublishData "oai-amf" "10.1.1.1" [])) smfStored0) = true :=
  publish_roundtrip "oai-amf" "10.1.1.1" [[]] smfStored0 (by decide)
    (amfPublishData "oai-amf" "10.1.1.1" []) (by simp [amfProvideServiceInfo])

/-! ## Claim C1 -/

/-- Claim C1: with the runtime reachable, a reconciliation pass sets the
status to Active only if the resolver verdict of that pass holds (AMF —
provided the service exists so the pass reaches the resolver — SMF and
SPGWU); and whenever the resolver reports a dependency unsatisfied, the pass
sets the Blocked status and leaves the workload stopped, so the pass never
leaves a unit Active with a missing dependency. -/
theorem active_requires_satisfied_deps (sA : AmfState) (sS : SmfState) (sU : SpgwuState)
    (hplan : sA.plan.contains "oai_amf" = true) :
    ((amfUpdate availAlways sA).state.status = .active → amfDepsReady sA = true) ∧
    (amfDepsReady sA = false →
      (amfUpdate availAlways sA).state.status = .blocked "need nrf and db relations" ∧
      amfRunning (amfUpdate availAlways sA).state = false) ∧
    ((smfUpdate availAlways sS).state.status = .active → smfDepsReady sS = true) ∧
    (smfDepsReady sS = false →
      (smfUpdate availAlways sS).state.status = .blocked "need nrf and amf relations" ∧
      smfRunning (smfUpdate availAlways sS).state = false) ∧
    ((spgwuUpdate availAlways sU).state.status = .active → spgwuDepsReady sU = true) ∧
    (spgwuDepsReady sU = false →
      (spgwuUpdate availAlways sU).state.status = .blocked "need nrf and smf relations" ∧
      spgwuRunning (spgwuUpdate availAlways sU).state = false) := by
  refine ⟨?_, ?_, ?_, ?_, ?_, ?_⟩
  · intro hact
    by_cases hd : amfDepsReady sA = true
    · exact hd
    · exfalso
      rw [amfUpdate_eq, if_neg (by simp [availAlways_eq]),
        if_neg (by rw [hplan]; decide), if_neg hd, amfBlockedBranch_status] at hact
      simp at hact
  · intro hd
    rw [amfUpdate_eq, if_neg (by simp [availAlways_eq]),
      if_neg (by rw [hplan]; decide), if_neg (by simp [hd])]
    exact ⟨amfBlockedBranch_status _ _, amfBlockedBranch_stops _⟩
  · intro hact
    by_cases hd : smfDepsReady sS = true
    · exact hd
    · exfalso
      rw [smfUpdate_eq, if_neg hd, (smfStopBranch_blocks _).1] at hact
      simp at hact
  · intro hd
    rw [smfUpdate_eq, if_neg (by simp [hd])]
    exact smfStopBranch_blocks _
  · intro hact
    by_cases hd : spgwuDepsReady sU = true
    · exact hd
    · exfalso
      rw [spgwuUpdate_eq, if_neg hd, (spgwuStopBranch_blocks _).1] at hact
      simp at hact
  · intro hd
    rw [spgwuUpdate_eq, if_neg (by simp [hd])]
    exact spgwuStopBranch_blocks _

/-- Witness for the C1 theorem: an Active AMF unit whose relations vanished
is blocked and stopped by the next pass. -/
theorem active_requires_satisfied_deps_witness :
    (amfUpdate availAlways amfStateDepsGone).state.status =
      .blocked "need nrf and db relations" ∧
    amfRunning (amfUpdate availAlways amfStateDepsGone).state = false :=
  (active_requires_satisfied_deps amfStateDepsGone smfStateAny spgwuStateAny
    (by decide)).2.1 (by decide)

/-! ## Claim C2 -/

/-- Claim C2 counterexample: in the SMF pass a `ConnectionError` raised by
the `start` call escapes the handler (`_start_service` is outside the
`try/except ConnectionError`) instead of deferring the triggering event, so
the claim fails at the start call it explicitly includes. -/
theorem conn_error_start_not_deferred_counterexample :
    (smfUpdate availFailAt3 smfStateEx).outcome = .raised .connectionError ∧
    (smfUpdate availFailAt3 smfStateEx).outcome ≠ .deferred := by decide

/-- Claim C2 (amended): in the AMF charm every pebble `ConnectionError`
during `_update_service` is caught — the pass never raises, and a deferred
pass leaves the ServiceState either untouched (in particular when the error
strikes at the start call) or already set to the Blocked status of the
dependencies-unsatisfied branch; in the SMF charm only the configure step
defers — a `ConnectionError` at start/stop propagates out of the handler,
though the ServiceState is then still its pre-pass value. -/
theorem conn_error_handling_amended (avail : Nat → Bool) (sA : AmfState) (sS : SmfState) :
    (∀ e : Exc, (amfUpdate avail sA).outcome ≠ .raised e) ∧
    ((amfUpdate avail sA).outcome = .deferred →
      ((amfUpdate avail sA).state.status = sA.status ∨
        (amfUpdate avail sA).state.status = .blocked "need nrf and db relations")) ∧
    (∀ e : Exc, (smfUpdate avail sS).outcome = .raised e →
      (smfUpdate avail sS).state.status = sS.status) := by
  refine ⟨?_, ?_, fun e h => smfUpdate_raised_status avail sS e h⟩
  · intro e
    rw [amfUpdate_eq]
    split_ifs
    · simp
    · simp
    · exact amfStartBranch_noRaise _ _ e
    · exact amfBlockedBranch_noRaise _ _ e
  · rw [amfUpdate_eq]
    split_ifs <;> intro h
    · exact Or.inl rfl
    · simp at h
    · exact Or.inl (amfStartBranch_deferred_status _ _ h)
    · exact Or.inr (amfBlockedBranch_status _ _)

/-- Witness for the amended C2 theorem: an AMF pass hitting an unreachable
socket at its first pebble call is deferred with the status untouched. -/
theorem conn_error_handling_amended_witness :
    (amfUpdate availFailAt0 amfStateIdle).outcome = .deferred ∧
    ((amfUpdate availFailAt0 amfStateIdle).state.status = amfStateIdle.status ∨
      (amfUpdate availFailAt0 amfStateIdle).state.status =
        .blocked "need nrf and db relations") :=
  ⟨by decide,
   (conn_error_handling_amended availFailAt0 amfStateIdle smfStateAny).2.1 (by decide)⟩

/-! ## Claim C9 -/

/-- Claim C9 (code bug): when the service definition is absent from the
runtime plan, the AMF pass indeed logs and returns untouched — no
configure/start/stop, no error — but the NR-UE pass (gnb dependency
satisfied) raises `ModelError` before reaching its existence check, because
`_start_service` evaluates `container.get_service` unconditionally; the
SMF/SPGWU `_start_service` share this slip, while `OaiNrfCharm._start_service`
guards the `get_service` call, showing the intended behaviour. -/
theorem missing_service_update_behaviour :
    (amfUpdate availAlways amfStateNoService).state = amfStateNoService ∧
    (amfUpdate availAlways amfStateNoService).outcome = .ok ∧
    (amfUpdate availAlways amfStateNoService).trace = [] ∧
    (ueUpdate availAlways ueStateNoService).outcome = .raised .modelError ∧
    (ueUpdate availAlways ueStateNoService).trace = [] := by decide

/-! ## Claim C7 -/

/-- Claim C7: with the runtime reachable and no intervening external change,
running a reconciliation pass twice in succession yields the same status
after the second run as after the first, and the second run issues no start
call and no publish at all (hence none with different content) — for the
AMF, SMF and NRF passes.  The loads re-derive the dependency verdict from
the unchanged relation channels, and `start` is guarded by
`is_service_running`, so the second pass finds the target run state already
reached. -/
theorem reconcile_idempotent (sA : AmfState) (sS : SmfState) (sN : NrfState) :
    ((amfUpdate availAlways (amfUpdate availAlways sA).state).state.status =
        (amfUpdate availAlways sA).state.status ∧
      ((amfUpdate availAlways (amfUpdate availAlways sA).state).trace.filter
        (fun a => isStartAction a || isPublishAction a)) = []) ∧
    ((smfUpdate availAlways (smfUpdate availAlways sS).state).state.status =
        (smfUpdate availAlways sS).state.status ∧
      ((smfUpdate availAlways (smfUpdate availAlways sS).state).trace.filter
        (fun a => isStartAction a || isPublishAction a)) = []) ∧
    ((nrfUpdate availAlways (nrfUpdate availAlways sN).state).state.status =
        (nrfUpdate availAlways sN).state.status ∧
      ((nrfUpdate availAlways (nrfUpdate availAlways sN).state).trace.filter
        (fun a => isStartAction a || isPublishAction a)) = []) :=
  ⟨amfSecondPass sA, smfSecondPass sS, nrfSecondPass sN⟩

end OaiBundle
